import Mathlib

/-!
Product catalog service

A shallow embedding of `src/productcatalogservice/product_catalog.go`:
the price normaliser `convertFromContentAPIProduct` and the catalog queries
`ListProducts`, `GetProduct`, `SearchProducts` built on `parseCatalog`.

Conventions of the embedding.

* Go `int64` / `int32` values are integers (`Int`); the narrowing conversions
  are written out with explicit reduction modulo `2^64` / `2^32`.
* Go strings are `String`s (sequences of code points; protobuf string fields
  are valid UTF-8).
* `*pb.Product` pointers are modelled by the value pointed to; the zero value
  `&pb.Product{}` is the structure with every field at its default.
* `time.Sleep(extraLatency)` only delays the answer and is left out.
* The package-level flag `reloadCatalog` and the function `readProductsAPI`
  are declared outside this source file; they are parameters (`World`).
* `github.com/shopspring/decimal` and `math/big` are dependencies; the parts
  used by the converter are transcribed below.
-/

namespace ProductCatalog

/-! ## Machine integers -/

/-- The `int64` with the same low 64 bits as `z` (two-complement wrap). -/
def wrapInt64 (z : Int) : Int :=
  (z + 9223372036854775808) % 18446744073709551616 - 9223372036854775808

/-- The Go conversion `int32(x)`: the `int32` with the same low 32 bits. -/
def wrapInt32 (z : Int) : Int :=
  (z + 2147483648) % 4294967296 - 2147483648

/-- Range of `int64`. -/
def inInt64 (z : Int) : Prop :=
  -9223372036854775808 ≤ z ∧ z ≤ 9223372036854775807

instance (z : Int) : Decidable (inInt64 z) := by
  unfold inInt64; infer_instance

/-- Range of `int32`. -/
def inInt32 (z : Int) : Prop :=
  -2147483648 ≤ z ∧ z ≤ 2147483647

instance (z : Int) : Decidable (inInt32 z) := by
  unfold inInt32; infer_instance

/-- The method `(*big.Int).Int64`: `v := int64(low64(x.abs)); if x.neg { v = -v }`. -/
def bigIntInt64 (x : Int) : Int :=
  let v := wrapInt64 ((x.natAbs : Int) % 18446744073709551616)
  if x < 0 then wrapInt64 (-v) else v

/-! ## The decimal library -/

/-- A `decimal.Decimal`: the number `value * 10 ^ exp`, `exp` an `int32`. -/
structure Decimal where
  value : Int
  exp : Int
deriving DecidableEq, Repr

/-- The failures of `decimal.NewFromString`, one per `fmt.Errorf` in it. -/
inductive DecimalError where
  | exponentRange
  | exponentNotNumeric
  | tooManyDots
  | notNumeric
  | fractionTooLong
deriving DecidableEq, Repr

/-- Value of one decimal digit. -/
def digitVal (c : Char) : Option Nat :=
  if '0' ≤ c ∧ c ≤ '9' then some (c.toNat - 48) else none

/-- Base-10 value of a run of digits, continuing from `acc`. -/
def digitsValue : List Char → Nat → Option Nat
  | [], acc => some acc
  | c :: cs, acc =>
    match digitVal c with
    | none => none
    | some d => digitsValue cs (acc * 10 + d)

/-- An optionally signed, non-empty run of decimal digits: the syntax accepted
both by `strconv.ParseInt(s, 10, _)` and by `(*big.Int).SetString(s, 10)`. -/
def parseSigned (s : List Char) : Option Int :=
  match s with
  | [] => none
  | c :: rest =>
    if c = '+' then
      (if rest.isEmpty then none else (digitsValue rest 0).map Int.ofNat)
    else if c = '-' then
      (if rest.isEmpty then none else (digitsValue rest 0).map (fun n => -(Int.ofNat n)))
    else (digitsValue (c :: rest) 0).map Int.ofNat

/-- The call `strconv.ParseInt(s, 10, 32)` as used for the exponent. -/
def parseInt32 (s : List Char) : Except DecimalError Int :=
  match parseSigned s with
  | none => .error .exponentNotNumeric
  | some n => if inInt32 n then .ok n else .error .exponentRange

/-- Split at `strings.IndexAny(value, "Ee")`: the text before the first `E`
or `e`, and the text after it when there is one. -/
def splitExponent : List Char → List Char × Option (List Char)
  | [] => ([], none)
  | c :: cs =>
    if c = 'E' ∨ c = 'e' then ([], some cs)
    else ((c :: (splitExponent cs).1), (splitExponent cs).2)

/-- Split at the first `.`: the text before it and the text after it. -/
def splitDot : List Char → List Char × Option (List Char)
  | [] => ([], none)
  | c :: cs =>
    if c = '.' then ([], some cs)
    else ((c :: (splitDot cs).1), (splitDot cs).2)

/-- The function `decimal.NewFromString`. The mantissa digits are read by
`strconv.ParseInt` up to 18 bytes and by `big.Int.SetString` beyond; both
accept exactly `parseSigned`, and 18 bytes never overflow an `int64`. -/
def NewFromString (value : String) : Except DecimalError Decimal :=
  let (mantissa, expText) := splitExponent value.data
  let expPart : Except DecimalError Int :=
    match expText with
    | none => .ok 0
    | some t => parseInt32 t
  match expPart with
  | .error e => .error e
  | .ok exp0 =>
    let (intText, fracText) := splitDot mantissa
    match fracText with
    | none =>
      match parseSigned intText with
      | none => .error .notNumeric
      | some v =>
        if inInt32 exp0 then .ok ⟨v, exp0⟩ else .error .fractionTooLong
    | some frac =>
      if frac.contains '.' then .error .tooManyDots
      else
        let exp := exp0 - (frac.length : Int)
        match parseSigned (intText ++ frac) with
        | none => .error .notNumeric
        | some v =>
          if inInt32 exp then .ok ⟨v, exp⟩ else .error .fractionTooLong

/-- The function `decimal.NewFromInt`. -/
def NewFromInt (v : Int) : Decimal := ⟨v, 0⟩

namespace Decimal

/-- The method `rescale`: the same number at exponent `exp`, the digits that
do not fit dropped by `big.Int.Quo` (division truncated toward zero). -/
def rescale (d : Decimal) (exp : Int) : Decimal :=
  if d.exp = exp then d
  else
    let diff := (exp - d.exp).natAbs
    let expScale : Int := 10 ^ diff
    if exp > d.exp then ⟨d.value.tdiv expScale, exp⟩
    else if exp < d.exp then ⟨d.value * expScale, exp⟩
    else ⟨d.value, exp⟩

/-- The function `RescalePair`: both numbers at the smaller exponent. -/
def RescalePair (d1 d2 : Decimal) : Decimal × Decimal :=
  if d1.exp < d2.exp then (d1, d2.rescale d1.exp)
  else if d1.exp > d2.exp then (d1.rescale d2.exp, d2)
  else (d1, d2)

/-- The method `Sub`. -/
def Sub (d d2 : Decimal) : Decimal :=
  let (rd, rd2) := RescalePair d d2
  ⟨rd.value - rd2.value, rd.exp⟩

/-- The method `Mul`; `none` is its panic when the exponent leaves `int32`. -/
def Mul (d d2 : Decimal) : Option Decimal :=
  let expInt64 := d.exp + d2.exp
  if expInt64 > 2147483647 ∨ expInt64 < -2147483648 then none
  else some ⟨d.value * d2.value, expInt64⟩

/-- The method `IntPart`. -/
def IntPart (d : Decimal) : Int :=
  bigIntInt64 (d.rescale 0).value

/-- The rational number a decimal stands for. -/
def toRat (d : Decimal) : ℚ := (d.value : ℚ) * (10 : ℚ) ^ d.exp

end Decimal

/-! ## Messages -/

/-- The message `pb.Money`. -/
structure Money where
  CurrencyCode : String := ""
  Units : Int := 0
  Nanos : Int := 0
deriving DecidableEq, Repr

/-- The message `pb.Product`; the zero value is `{}`. -/
structure Product where
  Id : String := ""
  Name : String := ""
  Description : String := ""
  Picture : String := ""
  PriceUsd : Option Money := none
  Categories : List String := []
deriving DecidableEq, Repr

/-- The amount a `Money` stands for: `units + nanos / 10^9`. -/
def Money.toRat (m : Money) : ℚ := (m.Units : ℚ) + (m.Nanos : ℚ) / 1000000000

structure contentAPIPrice where
  Value : String
  Currency : String
deriving DecidableEq, Repr

structure contentAPIProduct where
  OfferId : String
  Title : String
  Description : String
  ImageLink : String
  Price : contentAPIPrice
  ProductTypes : List String
deriving DecidableEq, Repr

/-! ## The price normaliser -/

/-- The function `convertFromContentAPIProduct`. The result is `none` only if
`Mul` panics. -/
def convertFromContentAPIProduct (cp : contentAPIProduct) : Option Product :=
  let returnProduct : Product :=
    { Id := cp.OfferId, Name := cp.Title, Description := cp.Description,
      Picture := cp.ImageLink }
  match NewFromString cp.Price.Value with
  | .error _ => some {}
  | .ok priceDecimal =>
    match (priceDecimal.Sub (NewFromInt priceDecimal.IntPart)).Mul
        (NewFromInt 1000000000) with
    | none => none
    | some scaled =>
      some { returnProduct with
        PriceUsd := some
          { Units := priceDecimal.IntPart
            Nanos := wrapInt32 scaled.IntPart
            CurrencyCode := cp.Price.Currency } }

/-- Truncation of a rational toward zero. -/
def truncRat (q : ℚ) : Int := if 0 ≤ q then ⌊q⌋ else ⌈q⌉

/-- The price string is accepted by `decimal.NewFromString`. -/
def validDecimal (s : String) : Prop := ∃ d, NewFromString s = .ok d

/-! ## The catalog store -/

/-- The message `pb.ListProductsResponse`. -/
structure ListProductsResponse where
  Products : List Product := []
deriving DecidableEq, Repr

/-- The message `pb.SearchProductsResponse`. -/
structure SearchProductsResponse where
  Results : List Product := []
deriving DecidableEq, Repr

structure GetProductRequest where
  Id : String
deriving DecidableEq, Repr

structure SearchProductsRequest where
  Query : String
deriving DecidableEq, Repr

structure productCatalog where
  catalog : ListProductsResponse := {}
deriving DecidableEq, Repr

/-- The gRPC status codes this file uses. -/
inductive Code where
  | NotFound
  | Unimplemented
deriving DecidableEq, Repr

/-- An error made by `status.Errorf`. -/
structure Status where
  code : Code
  message : String
deriving DecidableEq, Repr

/-- How a handler ends: a response, a returned error, or a run-time panic
(an index out of range). -/
inductive Outcome (α : Type) where
  | ok : α → Outcome α
  | err : Status → Outcome α
  | indexPanic : Outcome α
deriving DecidableEq, Repr

/-- What the file takes from outside itself. `reloadCatalog` is the package
flag. `readProductsAPI n c` is the `n`-th call (counting from 0) of
`readProductsAPI(&p.catalog)` on a catalog holding `c`: the catalog it leaves
behind and the error it returns, if any. `unicodeToLower` is `unicode.ToLower`. -/
structure World where
  reloadCatalog : Bool
  readProductsAPI : Nat → ListProductsResponse → ListProductsResponse × Option String
  unicodeToLower : Char → Char

/-- The server between two steps: the receiver `p` and the number of feed
fetches made so far. -/
structure Server where
  p : productCatalog := {}
  fetches : Nat := 0
deriving DecidableEq, Repr

/-- The method `parseCatalog`: the slice returned and the server afterwards. -/
def parseCatalog (w : World) (s : Server) : List Product × Server :=
  if w.reloadCatalog || s.p.catalog.Products.length == 0 then
    let r := w.readProductsAPI s.fetches s.p.catalog
    let s1 : Server := { p := { catalog := r.1 }, fetches := s.fetches + 1 }
    match r.2 with
    | some _ => ([], s1)
    | none => (s1.p.catalog.Products, s1)
  else (s.p.catalog.Products, s)

/-- The method `ListProducts`. -/
def ListProducts (w : World) (s : Server) : Outcome ListProductsResponse × Server :=
  (.ok { Products := (parseCatalog w s).1 }, (parseCatalog w s).2)

/-- The loop of `GetProduct` from index `i` with `found` so far. Every
evaluation of `p.parseCatalog()` is a call; `fuel` bounds the iterations
(`none` when it runs out). -/
def GetProduct.loop (w : World) (id : String) :
    Nat → Nat → Option Product → Server → Option (Option Product × Bool × Server)
  | 0, _, _, _ => none
  | fuel + 1, i, found, s =>
    let c1 := parseCatalog w s
    if i < c1.1.length then
      let c2 := parseCatalog w c1.2
      match c2.1[i]? with
      | none => some (found, true, c2.2)
      | some x =>
        if id = x.Id then
          let c3 := parseCatalog w c2.2
          match c3.1[i]? with
          | none => some (found, true, c3.2)
          | some y => GetProduct.loop w id fuel (i + 1) (some y) c3.2
        else GetProduct.loop w id fuel (i + 1) found c2.2
    else some (found, false, c1.2)

/-- The method `GetProduct`: the loop from index 0 with nothing found, then
the test `found == nil`. The boolean of the loop says it panicked. -/
def GetProduct (fuel : Nat) (w : World) (s : Server) (req : GetProductRequest) :
    Option (Outcome Product × Server) :=
  match GetProduct.loop w req.Id fuel 0 none s with
  | none => none
  | some (_, true, s1) => some (.indexPanic, s1)
  | some (none, false, s1) =>
    some (.err { code := .NotFound, message := "no product with ID " ++ req.Id }, s1)
  | some (some found, false, s1) => some (.ok found, s1)

/-- The function `strings.ToLower` on valid UTF-8: `unicode.ToLower` on each
code point. -/
def ToLower (w : World) (s : String) : String := ⟨s.data.map w.unicodeToLower⟩

/-- Whether `sub` occurs in `cs` as a contiguous block. -/
def containsChars : List Char → List Char → Bool
  | [], sub => sub.isEmpty
  | c :: cs, sub => sub.isPrefixOf (c :: cs) || containsChars cs sub

/-- The function `strings.Contains`. -/
def Contains (s substr : String) : Bool := containsChars s.data substr.data

/-- The condition of the `if` in `SearchProducts`. -/
def searchMatches (w : World) (query : String) (product : Product) : Bool :=
  Contains (ToLower w product.Name) (ToLower w query) ||
    Contains (ToLower w product.Description) (ToLower w query)

/-- The method `SearchProducts`: one call of `parseCatalog`, then the loop
appending the matching products to `ps`. -/
def SearchProducts (w : World) (s : Server) (req : SearchProductsRequest) :
    Outcome SearchProductsResponse × Server :=
  let ps := (parseCatalog w s).1.foldl
    (fun ps product => if searchMatches w req.Query product then ps ++ [product] else ps) []
  (.ok { Results := ps }, (parseCatalog w s).2)

/-- The server after `n` further calls of `parseCatalog`. -/
def afterCalls (w : World) : Nat → Server → Server
  | 0, s => s
  | n + 1, s => afterCalls w n (parseCatalog w s).2

/-- Every call of `parseCatalog` from `s` on returns the same snapshot `snap`
(as when the flag is off and the stored snapshot is not empty, or when the feed
keeps answering with the same products). -/
def StableSnapshot (w : World) (s : Server) (snap : List Product) : Prop :=
  ∀ n, (parseCatalog w (afterCalls w n s)).1 = snap

/-- A scan that keeps the last product whose `Id` is `id`. -/
def scanLast (id : String) (found : Option Product) (snap : List Product) : Option Product :=
  snap.foldl (fun found x => if id = x.Id then some x else found) found

/-- The answer of `GetProduct` computed from a last-match scan. -/
def answerOf (id : String) : Option Product → Outcome Product
  | none => .err { code := .NotFound, message := "no product with ID " ++ id }
  | some found => .ok found

/-! ## Sample inputs -/

/-- A feed record with the given price. -/
def sampleRecord (value currency : String) : contentAPIProduct :=
  { OfferId := "OLJCESPC7Z", Title := "Sunglasses", Description := "Add a modern touch",
    ImageLink := "/static/img/products/sunglasses.jpg",
    Price := { Value := value, Currency := currency }, ProductTypes := ["accessories"] }

/-- Two products sharing the identifier `X`, named `A` then `B`. -/
def duplicateSnapshot : List Product :=
  [{ Id := "X", Name := "A" }, { Id := "X", Name := "B" }]

/-- A feed that is down: every fetch fails and leaves the catalog as it was. -/
def failingWorld (reload : Bool) : World :=
  { reloadCatalog := reload
    readProductsAPI := fun _ c => (c, some "content API unavailable")
    unicodeToLower := Char.toLower }

/-- A feed that answers every fetch with the products `ps`. -/
def constantWorld (reload : Bool) (ps : List Product) : World :=
  { reloadCatalog := reload
    readProductsAPI := fun _ _ => ({ Products := ps }, none)
    unicodeToLower := Char.toLower }

/-! ## Health checking -/

/-- The enumeration `healthpb.HealthCheckResponse_ServingStatus`. -/
inductive ServingStatus where
  | UNKNOWN
  | SERVING
  | NOT_SERVING
  | SERVICE_UNKNOWN
deriving DecidableEq, Repr

/-- The message `healthpb.HealthCheckRequest`. -/
structure HealthCheckRequest where
  Service : String := ""
deriving DecidableEq, Repr

/-- The message `healthpb.HealthCheckResponse`. -/
structure HealthCheckResponse where
  Status : ServingStatus := .UNKNOWN
deriving DecidableEq, Repr

/-- The method `Check`: it reads neither the request nor the catalog. -/
def Check (_w : World) (s : Server) (_req : HealthCheckRequest) :
    Outcome HealthCheckResponse × Server :=
  (.ok { Status := .SERVING }, s)

/-! ## Reference behaviours the queries are compared with -/

/-- The memoised lookup the specification describes: the snapshot is loaded by
one `parseCatalog` call at the start of the request and a last-match scan runs
over that local copy. -/
def GetProductMemoised (w : World) (s : Server) (req : GetProductRequest) :
    Outcome Product × Server :=
  (answerOf req.Id (scanLast req.Id none (parseCatalog w s).1), (parseCatalog w s).2)

/-- A scan that keeps the first product whose `Id` is `id`. -/
def scanFirst (id : String) (snap : List Product) : Option Product :=
  snap.find? (fun x => decide (id = x.Id))

/-- The feed answers every fetch, whatever the catalog holds, with the same
products and no error. -/
def ConstantFeed (w : World) (ps : List Product) : Prop :=
  ∀ n c, w.readProductsAPI n c = ({ Products := ps }, none)

/-! ## Further sample inputs -/

/-- A shirt and a mug, with distinct identifiers. -/
def shirtSnapshot : List Product :=
  [{ Id := "SHIRT1", Name := "Shirt", Description := "Cotton tee" },
   { Id := "MUG1", Name := "Mug", Description := "Ceramic" }]

/-- A feed whose answer changes during a request: the first two fetches give a
product with `Id` `X`, the later ones a product with `Id` `Y`. Reload is on. -/
def changingWorld : World :=
  { reloadCatalog := true
    readProductsAPI := fun n _ =>
      if n < 2 then ({ Products := [{ Id := "X", Name := "A" }] }, none)
      else ({ Products := [{ Id := "Y", Name := "B" }] }, none)
    unicodeToLower := Char.toLower }

/-- A feed that shrinks during a request: one product on the first fetch, none
afterwards. Reload is on. -/
def shrinkingWorld : World :=
  { reloadCatalog := true
    readProductsAPI := fun n _ =>
      if n = 0 then ({ Products := [{ Id := "X", Name := "A" }] }, none)
      else ({ Products := [] }, none)
    unicodeToLower := Char.toLower }

/-! ## Reference notions for prices and requests -/

/-- The number of `parseCatalog` calls `GetProduct` makes for `id` over the
snapshot `snap` when every call returns `snap`: one per loop test, one per
comparison, one per match. -/
def requestCalls (id : String) (snap : List Product) : Nat :=
  2 * snap.length + 1 + (snap.filter (fun x => decide (id = x.Id))).length

/-- The first `calls` calls of `parseCatalog` from `s` on all return `snap`. -/
def StableDuring (w : World) (s : Server) (snap : List Product) (calls : Nat) : Prop :=
  ∀ n, n < calls → (parseCatalog w (afterCalls w n s)).1 = snap

/-- A feed that answers the first fetch with one product and is down
afterwards, leaving the catalog as it was. Reload is on. -/
def flakyWorld : World :=
  { reloadCatalog := true
    readProductsAPI := fun n c =>
      if n = 0 then ({ Products := [{ Id := "X", Name := "A" }] }, none)
      else (c, some "content API unavailable")
    unicodeToLower := Char.toLower }

/-! ## Integer and rational arithmetic -/

theorem bigIntInt64_eq_wrap (x : Int) : bigIntInt64 x = wrapInt64 x := by
  unfold bigIntInt64 wrapInt64
  by_cases h : x < 0
  · simp only [h, if_true]
    omega
  · simp only [h, if_false]
    omega

theorem wrapInt64_of_inInt64 {z : Int} (h : inInt64 z) : wrapInt64 z = z := by
  unfold inInt64 at h
  unfold wrapInt64
  omega

theorem wrapInt32_of_inInt32 {z : Int} (h : inInt32 z) : wrapInt32 z = z := by
  unfold inInt32 at h
  unfold wrapInt32
  omega

theorem wrapInt64_shift (x q : Int) :
    wrapInt64 (x + (q - wrapInt64 q) * 1000000000) = wrapInt64 x := by
  unfold wrapInt64
  omega

theorem wrapInt64_diff_mul (q : Int) :
    wrapInt64 ((q - wrapInt64 q) * 1000000000) = 0 := by
  unfold wrapInt64
  omega

theorem wrapInt64_sign (q : Int) :
    (0 ≤ q → 0 ≤ q - wrapInt64 q) ∧ (q ≤ 0 → q - wrapInt64 q ≤ 0) := by
  unfold wrapInt64
  omega

theorem tdiv_add_mul_same_sign (a n T : Int) (hT : 0 < T)
    (h : (0 ≤ a ∧ 0 ≤ n) ∨ (a ≤ 0 ∧ n ≤ 0)) :
    (a + n * T).tdiv T = a.tdiv T + n := by
  have key : ∀ a n : Int, 0 ≤ a → 0 ≤ n → (a + n * T).tdiv T = a.tdiv T + n := by
    intro a n ha hn
    have h1 : 0 ≤ a + n * T := by positivity
    rw [Int.tdiv_eq_ediv h1 hT.le, Int.tdiv_eq_ediv ha hT.le,
      Int.add_mul_ediv_right _ _ hT.ne']
  rcases h with ⟨ha, hn⟩ | ⟨ha, hn⟩
  · exact key a n ha hn
  · have := key (-a) (-n) (by omega) (by omega)
    have e : -a + -n * T = -(a + n * T) := by ring
    rw [e, Int.neg_tdiv, Int.neg_tdiv] at this
    omega

theorem truncRat_intCast (z : Int) : truncRat (z : ℚ) = z := by
  unfold truncRat
  split <;> simp

theorem truncRat_div (a b : Int) (hb : 0 < b) :
    truncRat ((a : ℚ) / (b : ℚ)) = a.tdiv b := by
  have hbq : (0 : ℚ) < (b : ℚ) := by exact_mod_cast hb
  have fl : ∀ x : Int, ⌊(x : ℚ) / (b : ℚ)⌋ = x / b := by
    intro x
    have := Rat.floor_intCast_div_natCast x b.toNat
    have e : ((b.toNat : ℕ) : ℤ) = b := Int.toNat_of_nonneg hb.le
    have e2 : ((b.toNat : ℕ) : ℚ) = (b : ℚ) := by exact_mod_cast e
    rw [e2, e] at this
    exact this
  unfold truncRat
  by_cases ha : 0 ≤ a
  · have : (0 : ℚ) ≤ (a : ℚ) / (b : ℚ) := div_nonneg (by exact_mod_cast ha) hbq.le
    rw [if_pos this, fl, Int.tdiv_eq_ediv ha hb.le]
  · have hneg : (a : ℚ) / (b : ℚ) < 0 := div_neg_of_neg_of_pos (by exact_mod_cast (by omega : a < 0)) hbq
    rw [if_neg (not_le.mpr hneg)]
    have hc : ⌈(a : ℚ) / (b : ℚ)⌉ = -⌊((-a : ℤ) : ℚ) / (b : ℚ)⌋ := by
      rw [show ((-a : ℤ) : ℚ) / (b : ℚ) = -((a : ℚ) / (b : ℚ)) by push_cast; ring,
        Int.floor_neg, neg_neg]
    rw [hc, fl, ← Int.tdiv_eq_ediv (by omega) hb.le, Int.neg_tdiv]
    omega

theorem rescale_zero_value_nonneg (v : Int) (k : Nat) :
    (Decimal.rescale ⟨v, (k : Int)⟩ 0).value = v * 10 ^ k := by
  unfold Decimal.rescale
  by_cases hk : k = 0
  · subst hk; simp
  · have h1 : ¬ ((k : Int) = 0) := by omega
    have h2 : ¬ ((0 : Int) > (k : Int)) := by omega
    have h3 : (0 : Int) < (k : Int) := by omega
    simp [h1, h2, h3]

theorem rescale_zero_value_neg (v : Int) (k : Nat) :
    (Decimal.rescale ⟨v, -((k + 1 : Nat) : Int)⟩ 0).value = v.tdiv (10 ^ (k + 1)) := by
  unfold Decimal.rescale
  have h1 : ¬ (-((k + 1 : Nat) : Int) = 0) := by omega
  have h2 : ((0 : Int) > -((k + 1 : Nat) : Int)) := by omega
  have h4 : (0 - -((k + 1 : Nat) : Int)).natAbs = k + 1 := by omega
  simp only [h1, h2, h4, if_false, if_true]

theorem toRat_nonneg (v : Int) (k : Nat) :
    Decimal.toRat ⟨v, (k : Int)⟩ = ((v * 10 ^ k : Int) : ℚ) := by
  unfold Decimal.toRat
  push_cast
  simp

theorem toRat_neg (v : Int) (k : Nat) :
    Decimal.toRat ⟨v, -((k + 1 : Nat) : Int)⟩ = (v : ℚ) / (((10 : Int) ^ (k + 1) : Int) : ℚ) := by
  unfold Decimal.toRat
  simp only [zpow_neg, zpow_natCast]
  push_cast
  ring

theorem rescale_exp (d : Decimal) (e : Int) : (d.rescale e).exp = e := by
  unfold Decimal.rescale
  split_ifs <;> simp_all

theorem sub_nonneg (v U : Int) (k : Nat) :
    Decimal.Sub ⟨v, (k : Int)⟩ (NewFromInt U) = ⟨v * 10 ^ k - U, 0⟩ := by
  unfold Decimal.Sub Decimal.RescalePair NewFromInt
  by_cases hk : k = 0
  · subst hk; simp
  · have h1 : ¬ ((k : Int) < 0) := by omega
    have h2 : (k : Int) > 0 := by omega
    have h3 := rescale_zero_value_nonneg v k
    simp only [h1, h2, if_false, if_true, h3, rescale_exp]

theorem sub_neg (v U : Int) (k : Nat) :
    Decimal.Sub ⟨v, -((k + 1 : Nat) : Int)⟩ (NewFromInt U)
      = ⟨v - U * 10 ^ (k + 1), -((k + 1 : Nat) : Int)⟩ := by
  unfold Decimal.Sub Decimal.RescalePair NewFromInt
  have h1 : (-((k + 1 : Nat) : Int) < 0) := by omega
  simp only [h1, if_true]
  unfold Decimal.rescale
  have h2 : ¬ ((0 : Int) = -((k + 1 : Nat) : Int)) := by omega
  have h3 : ¬ (-((k + 1 : Nat) : Int) > 0) := by omega
  have h4 : (-((k + 1 : Nat) : Int) - 0).natAbs = k + 1 := by omega
  simp only [h1, h2, h3, h4, if_true, if_false]

theorem intPart_nanos_nonneg (v : Int) (k : Nat) :
    Decimal.IntPart ⟨v, (k : Int)⟩ = wrapInt64 (truncRat (Decimal.toRat ⟨v, (k : Int)⟩)) ∧
    ∃ scaled,
      (Decimal.Sub ⟨v, (k : Int)⟩ (NewFromInt (Decimal.IntPart ⟨v, (k : Int)⟩))).Mul
          (NewFromInt 1000000000) = some scaled ∧
      wrapInt32 scaled.IntPart
        = truncRat ((Decimal.toRat ⟨v, (k : Int)⟩
            - (truncRat (Decimal.toRat ⟨v, (k : Int)⟩) : ℚ)) * 1000000000) := by
  have hI : Decimal.IntPart ⟨v, (k : Int)⟩ = wrapInt64 (v * 10 ^ k) := by
    unfold Decimal.IntPart
    rw [rescale_zero_value_nonneg, bigIntInt64_eq_wrap]
  have hT : truncRat (Decimal.toRat ⟨v, (k : Int)⟩) = v * 10 ^ k := by
    rw [toRat_nonneg, truncRat_intCast]
  refine ⟨by rw [hI, hT], ⟨(v * 10 ^ k - wrapInt64 (v * 10 ^ k)) * 1000000000, 0⟩, ?_, ?_⟩
  · rw [hI, sub_nonneg]
    simp [Decimal.Mul, NewFromInt]
  · rw [hT, toRat_nonneg]
    have h0 : Decimal.IntPart ⟨(v * 10 ^ k - wrapInt64 (v * 10 ^ k)) * 1000000000, 0⟩ = 0 := by
      unfold Decimal.IntPart
      have := rescale_zero_value_nonneg ((v * 10 ^ k - wrapInt64 (v * 10 ^ k)) * 1000000000) 0
      simp only [Nat.cast_zero, pow_zero, mul_one] at this
      rw [this, bigIntInt64_eq_wrap, wrapInt64_diff_mul]
    rw [h0]
    simp [wrapInt32, truncRat]

theorem tdiv_rem_bounds (v T : Int) (hT : 0 < T) :
    (0 ≤ v → 0 ≤ v.tdiv T ∧ 0 ≤ v - T * v.tdiv T ∧ v - T * v.tdiv T < T) ∧
    (v ≤ 0 → v.tdiv T ≤ 0 ∧ v - T * v.tdiv T ≤ 0 ∧ -T < v - T * v.tdiv T) := by
  have key : ∀ w : Int, 0 ≤ w → 0 ≤ w.tdiv T ∧ 0 ≤ w - T * w.tdiv T ∧ w - T * w.tdiv T < T := by
    intro w hw
    have e := Int.tdiv_add_tmod w T
    have h1 := Int.tmod_nonneg T hw
    have h2 := Int.tmod_lt_of_pos w hT
    have h3 := Int.tdiv_nonneg hw hT.le
    refine ⟨h3, ?_, ?_⟩ <;> linarith
  refine ⟨key v, ?_⟩
  intro hv
  have := key (-v) (by omega)
  rw [Int.neg_tdiv] at this
  obtain ⟨h1, h2, h3⟩ := this
  have e : T * -v.tdiv T = -(T * v.tdiv T) := by ring
  rw [e] at h2 h3
  refine ⟨by omega, by omega, by omega⟩

theorem tdiv_abs_lt (a T c : Int) (hT : 0 < T) (h1 : -(c * T) < a) (h2 : a < c * T) :
    -c < a.tdiv T ∧ a.tdiv T < c := by
  by_cases ha : 0 ≤ a
  · rw [Int.tdiv_eq_ediv ha hT.le]
    have := Int.ediv_lt_of_lt_mul hT h2
    have := Int.ediv_nonneg ha hT.le
    have hc : 0 < c := by
      by_contra hc
      have : c * T ≤ 0 := Int.mul_nonpos_of_nonpos_of_nonneg (by omega) hT.le
      omega
    omega
  · have hna : 0 ≤ -a := by omega
    have e : a.tdiv T = -((-a).tdiv T) := by rw [Int.neg_tdiv]; omega
    rw [e, Int.tdiv_eq_ediv hna hT.le]
    have := Int.ediv_lt_of_lt_mul hT (by omega : -a < c * T)
    have := Int.ediv_nonneg hna hT.le
    have hc : 0 < c := by
      by_contra hc
      have : c * T ≤ 0 := Int.mul_nonpos_of_nonpos_of_nonneg (by omega) hT.le
      omega
    omega

theorem intPart_nanos_neg (v : Int) (k : Nat) (hk : ((k + 1 : Nat) : Int) ≤ 2147483648) :
    Decimal.IntPart ⟨v, -((k + 1 : Nat) : Int)⟩
      = wrapInt64 (truncRat (Decimal.toRat ⟨v, -((k + 1 : Nat) : Int)⟩)) ∧
    ∃ scaled,
      (Decimal.Sub ⟨v, -((k + 1 : Nat) : Int)⟩
          (NewFromInt (Decimal.IntPart ⟨v, -((k + 1 : Nat) : Int)⟩))).Mul
          (NewFromInt 1000000000) = some scaled ∧
      wrapInt32 scaled.IntPart
        = truncRat ((Decimal.toRat ⟨v, -((k + 1 : Nat) : Int)⟩
            - (truncRat (Decimal.toRat ⟨v, -((k + 1 : Nat) : Int)⟩) : ℚ)) * 1000000000) := by
  have hTpos : (0 : Int) < 10 ^ (k + 1) := by positivity
  generalize hTdef : (10 : Int) ^ (k + 1) = T at hTpos
  have hI : Decimal.IntPart ⟨v, -((k + 1 : Nat) : Int)⟩ = wrapInt64 (v.tdiv T) := by
    unfold Decimal.IntPart
    rw [rescale_zero_value_neg, bigIntInt64_eq_wrap, hTdef]
  have hQ : truncRat (Decimal.toRat ⟨v, -((k + 1 : Nat) : Int)⟩) = v.tdiv T := by
    rw [toRat_neg, hTdef, truncRat_div _ _ hTpos]
  obtain ⟨bpos, bneg⟩ := tdiv_rem_bounds v T hTpos
  obtain ⟨spos, sneg⟩ := wrapInt64_sign (v.tdiv T)
  -- the scaled remainder and its quotient by T
  have hsplit : (v - wrapInt64 (v.tdiv T) * T) * 1000000000
      = (v - T * v.tdiv T) * 1000000000
        + ((v.tdiv T - wrapInt64 (v.tdiv T)) * 1000000000) * T := by ring
  have hsign : (0 ≤ (v - T * v.tdiv T) * 1000000000
        ∧ 0 ≤ (v.tdiv T - wrapInt64 (v.tdiv T)) * 1000000000)
      ∨ ((v - T * v.tdiv T) * 1000000000 ≤ 0
        ∧ (v.tdiv T - wrapInt64 (v.tdiv T)) * 1000000000 ≤ 0) := by
    rcases le_total 0 v with hv | hv
    · obtain ⟨h1, h2, _⟩ := bpos hv
      have := spos h1
      left; constructor <;> omega
    · obtain ⟨h1, h2, _⟩ := bneg hv
      have := sneg h1
      right; constructor <;> omega
  have hquot : ((v - wrapInt64 (v.tdiv T) * T) * 1000000000).tdiv T
      = ((v - T * v.tdiv T) * 1000000000).tdiv T
        + (v.tdiv T - wrapInt64 (v.tdiv T)) * 1000000000 := by
    rw [hsplit, tdiv_add_mul_same_sign _ _ _ hTpos hsign]
  have hrange : -1000000000 < ((v - T * v.tdiv T) * 1000000000).tdiv T
      ∧ ((v - T * v.tdiv T) * 1000000000).tdiv T < 1000000000 := by
    apply tdiv_abs_lt _ _ _ hTpos
    · rcases le_total 0 v with hv | hv
      · obtain ⟨_, h2, h3⟩ := bpos hv; nlinarith
      · obtain ⟨_, h2, h3⟩ := bneg hv; nlinarith
    · rcases le_total 0 v with hv | hv
      · obtain ⟨_, h2, h3⟩ := bpos hv; nlinarith
      · obtain ⟨_, h2, h3⟩ := bneg hv; nlinarith
  refine ⟨by rw [hI, hQ],
    ⟨(v - wrapInt64 (v.tdiv T) * T) * 1000000000, -((k + 1 : Nat) : Int)⟩, ?_, ?_⟩
  · rw [hI, sub_neg, hTdef]
    have h1 : ¬ (-((k + 1 : Nat) : Int) + 0 > 2147483647 ∨ -((k + 1 : Nat) : Int) + 0 < -2147483648) := by
      omega
    simp only [Decimal.Mul, NewFromInt, add_zero] at h1 ⊢
    rw [if_neg h1]
  · have hIP : Decimal.IntPart ⟨(v - wrapInt64 (v.tdiv T) * T) * 1000000000, -((k + 1 : Nat) : Int)⟩
        = ((v - T * v.tdiv T) * 1000000000).tdiv T := by
      unfold Decimal.IntPart
      rw [rescale_zero_value_neg, bigIntInt64_eq_wrap, hTdef, hquot, wrapInt64_shift]
      exact wrapInt64_of_inInt64 (by unfold inInt64; omega)
    rw [hIP, wrapInt32_of_inInt32 (by unfold inInt32; omega), hQ, toRat_neg, hTdef]
    have hTq : ((T : Int) : ℚ) ≠ 0 := by exact_mod_cast hTpos.ne'
    have e : ((v : ℚ) / (T : ℚ) - ((v.tdiv T : Int) : ℚ)) * 1000000000
        = (((v - T * v.tdiv T) * 1000000000 : Int) : ℚ) / (T : ℚ) := by
      push_cast
      field_simp
    rw [e, truncRat_div _ _ hTpos]

theorem NewFromString_exp_range {s : String} {d : Decimal}
    (h : NewFromString s = .ok d) : inInt32 d.exp := by
  unfold NewFromString at h
  simp only at h
  repeat' split at h
  all_goals first
    | (cases h; assumption)
    | cases h

theorem intPart_nanos (d : Decimal) (hexp : inInt32 d.exp) :
    d.IntPart = wrapInt64 (truncRat d.toRat) ∧
    ∃ scaled,
      (d.Sub (NewFromInt d.IntPart)).Mul (NewFromInt 1000000000) = some scaled ∧
      wrapInt32 scaled.IntPart
        = truncRat ((d.toRat - (truncRat d.toRat : ℚ)) * 1000000000) := by
  obtain ⟨v, e⟩ := d
  unfold inInt32 at hexp
  simp only at hexp
  rcases le_or_lt 0 e with he | he
  · obtain ⟨k, rfl⟩ := Int.eq_ofNat_of_zero_le he
    exact intPart_nanos_nonneg v k
  · obtain ⟨k, rfl⟩ : ∃ k : Nat, e = -((k + 1 : Nat) : Int) := ⟨(-e - 1).toNat, by omega⟩
    exact intPart_nanos_neg v k (by omega)

/-- What the converter returns on a price the decimal library accepts: the
copied fields, `units` the integer part narrowed to `int64`, `nanos` the
truncated billionths of the fractional part. -/
theorem convert_of_parse (cp : contentAPIProduct) (d : Decimal)
    (h : NewFromString cp.Price.Value = .ok d) :
    convertFromContentAPIProduct cp = some
      { Id := cp.OfferId, Name := cp.Title, Description := cp.Description,
        Picture := cp.ImageLink,
        PriceUsd := some
          { Units := wrapInt64 (truncRat d.toRat)
            Nanos := truncRat ((d.toRat - (truncRat d.toRat : ℚ)) * 1000000000)
            CurrencyCode := cp.Price.Currency } } := by
  obtain ⟨hU, scaled, hM, hN⟩ := intPart_nanos d (NewFromString_exp_range h)
  unfold convertFromContentAPIProduct
  simp only [h]
  rw [hM]
  simp only [hN, hU]

theorem truncRat_toRat (d : Decimal) : truncRat d.toRat = (d.rescale 0).value := by
  obtain ⟨v, e⟩ := d
  rcases le_or_lt 0 e with he | he
  · obtain ⟨k, rfl⟩ := Int.eq_ofNat_of_zero_le he
    rw [toRat_nonneg, truncRat_intCast, rescale_zero_value_nonneg]
  · obtain ⟨k, rfl⟩ : ∃ k : Nat, e = -((k + 1 : Nat) : Int) := ⟨(-e - 1).toNat, by omega⟩
    rw [toRat_neg, truncRat_div _ _ (by positivity), rescale_zero_value_neg]

theorem toRat_mul_billion (d : Decimal) (h : -9 ≤ d.exp) :
    d.toRat * 1000000000 = ((d.value * 10 ^ (d.exp + 9).toNat : Int) : ℚ) := by
  unfold Decimal.toRat
  have e1 : (1000000000 : ℚ) = (10 : ℚ) ^ (9 : Int) := by norm_num
  have e2 : ((d.exp + 9).toNat : Int) = d.exp + 9 := Int.toNat_of_nonneg (by omega)
  rw [e1, mul_assoc, ← zpow_add₀ (by norm_num : (10 : ℚ) ≠ 0), ← e2, zpow_natCast]
  push_cast
  rfl

theorem truncRat_bounds (q : ℚ) :
    (0 ≤ q → 0 ≤ truncRat q ∧ (truncRat q : ℚ) ≤ q ∧ q < (truncRat q : ℚ) + 1) ∧
    (q < 0 → truncRat q ≤ 0 ∧ q ≤ (truncRat q : ℚ) ∧ (truncRat q : ℚ) - 1 < q) := by
  unfold truncRat
  constructor
  · intro h
    rw [if_pos h]
    exact ⟨Int.floor_nonneg.mpr h, Int.floor_le q, Int.lt_floor_add_one q⟩
  · intro h
    rw [if_neg (not_le.mpr h)]
    refine ⟨Int.ceil_le.mpr (by exact_mod_cast h.le), Int.le_ceil q, ?_⟩
    have := Int.ceil_lt_add_one q
    linarith

theorem nanos_bounds (q : ℚ) :
    (0 ≤ q → 0 ≤ truncRat ((q - (truncRat q : ℚ)) * 1000000000)
        ∧ truncRat ((q - (truncRat q : ℚ)) * 1000000000) < 1000000000) ∧
    (q < 0 → -1000000000 < truncRat ((q - (truncRat q : ℚ)) * 1000000000)
        ∧ truncRat ((q - (truncRat q : ℚ)) * 1000000000) ≤ 0) := by
  obtain ⟨hp, hn⟩ := truncRat_bounds q
  constructor
  · intro h
    obtain ⟨_, h2, h3⟩ := hp h
    have hf : 0 ≤ (q - (truncRat q : ℚ)) * 1000000000 := by nlinarith
    obtain ⟨g1, g2, _⟩ := (truncRat_bounds _).1 hf
    refine ⟨g1, ?_⟩
    have : (truncRat ((q - (truncRat q : ℚ)) * 1000000000) : ℚ) < 1000000000 := by linarith
    exact_mod_cast this
  · intro h
    obtain ⟨_, h2, h3⟩ := hn h
    rcases eq_or_lt_of_le (show (q - (truncRat q : ℚ)) * 1000000000 ≤ 0 by nlinarith) with h0 | hlt
    · rw [h0]
      have : truncRat 0 = 0 := by simp [truncRat]
      rw [this]
      omega
    · obtain ⟨g1, g2, g3⟩ := (truncRat_bounds _).2 hlt
      refine ⟨?_, g1⟩
      have : (-1000000000 : ℚ) < (truncRat ((q - (truncRat q : ℚ)) * 1000000000) : ℚ) := by
        linarith
      exact_mod_cast this

/-- No `Money` with `units` an `int64` and `nanos` an `int32` stands for `10^30`:
the largest amount such a message can hold is below `2^63 + 3`. -/
theorem money_below_huge (m : Money) (hu : inInt64 m.Units) (hn : inInt32 m.Nanos) :
    m.toRat ≠ Decimal.toRat ⟨1000000000000000000000000000000, 0⟩ := by
  unfold inInt64 at hu
  unfold inInt32 at hn
  unfold Money.toRat Decimal.toRat
  have h1 : (m.Units : ℚ) ≤ 9223372036854775807 := by exact_mod_cast hu.2
  have h2 : (m.Nanos : ℚ) ≤ 2147483647 := by exact_mod_cast hn.2
  have h3 : (m.Nanos : ℚ) / 1000000000 ≤ 3 := by
    rw [div_le_iff₀ (by norm_num)]
    linarith
  intro h
  norm_num at h
  linarith

/-! ## The price normaliser: claims -/

/-- C1, as amended: when the price string is accepted by the decimal parser,
has at most 9 fractional digits (exponent at least -9) and its integer part
fits in an `int64`, the converted product carries a `Money` with
`units + nanos / 10^9` equal to the decimal value of the string, exactly. -/
theorem C1_money_exact_within_int64 (cp : contentAPIProduct) (d : Decimal)
    (hparse : NewFromString cp.Price.Value = .ok d)
    (hdigits : -9 ≤ d.exp)
    (hrange : inInt64 (truncRat d.toRat)) :
    ∃ p m, convertFromContentAPIProduct cp = some p ∧ p.PriceUsd = some m ∧
      m.toRat = d.toRat := by
  refine ⟨_, _, convert_of_parse cp d hparse, rfl, ?_⟩
  unfold Money.toRat
  simp only
  rw [wrapInt64_of_inInt64 hrange]
  have hz : (d.toRat - (truncRat d.toRat : ℚ)) * 1000000000
      = ((d.value * 10 ^ (d.exp + 9).toNat - truncRat d.toRat * 1000000000 : Int) : ℚ) := by
    rw [sub_mul, toRat_mul_billion d hdigits]
    push_cast
    ring
  rw [hz, truncRat_intCast, ← hz]
  ring

/-- C1 witness: the record priced `67.99`, which becomes 67 units and
990000000 nanos. -/
theorem C1_money_exact_witness :
    NewFromString (sampleRecord "67.99" "USD").Price.Value = .ok ⟨6799, -2⟩ ∧
    (sampleRecord "67.99" "USD" |> convertFromContentAPIProduct)
      = some { Id := "OLJCESPC7Z", Name := "Sunglasses", Description := "Add a modern touch",
               Picture := "/static/img/products/sunglasses.jpg",
               PriceUsd := some { CurrencyCode := "USD", Units := 67, Nanos := 990000000 } } ∧
    ∃ p m, convertFromContentAPIProduct (sampleRecord "67.99" "USD") = some p ∧
      p.PriceUsd = some m ∧ m.toRat = Decimal.toRat ⟨6799, -2⟩ :=
  ⟨rfl, by decide,
   C1_money_exact_within_int64 (sampleRecord "67.99" "USD") ⟨6799, -2⟩
    rfl (by decide) (by rw [truncRat_toRat]; decide)⟩

/-- C1 counterexample: the price `10^30` is a valid numeral with no fractional
digits, yet the `Money` returned stands for `5076944270305263616`. -/
theorem C1_counterexample_units_overflow :
    NewFromString (sampleRecord "1000000000000000000000000000000" "USD").Price.Value
      = .ok ⟨1000000000000000000000000000000, 0⟩ ∧
    convertFromContentAPIProduct (sampleRecord "1000000000000000000000000000000" "USD")
      = some { Id := "OLJCESPC7Z", Name := "Sunglasses", Description := "Add a modern touch",
               Picture := "/static/img/products/sunglasses.jpg",
               PriceUsd := some { CurrencyCode := "USD", Units := 5076944270305263616, Nanos := 0 } } ∧
    Money.toRat { CurrencyCode := "USD", Units := 5076944270305263616, Nanos := 0 }
      ≠ Decimal.toRat ⟨1000000000000000000000000000000, 0⟩ := by
  refine ⟨rfl, by decide, ?_⟩
  unfold Money.toRat Decimal.toRat
  norm_num

/-- C2, as amended: when the price string parses as the decimal value `v`,
`nanos = trunc((v - trunc v) * 10^9)` (truncated, never rounded), and `units`
is `trunc v` narrowed to `int64`, which is `trunc v` itself whenever `trunc v`
fits in an `int64`. -/
theorem C2_units_nanos_truncated (cp : contentAPIProduct) (d : Decimal)
    (hparse : NewFromString cp.Price.Value = .ok d) :
    ∃ p m, convertFromContentAPIProduct cp = some p ∧ p.PriceUsd = some m ∧
      m.Nanos = truncRat ((d.toRat - (truncRat d.toRat : ℚ)) * 1000000000) ∧
      m.Units = wrapInt64 (truncRat d.toRat) ∧
      (inInt64 (truncRat d.toRat) → m.Units = truncRat d.toRat) :=
  ⟨_, _, convert_of_parse cp d hparse, rfl, rfl, rfl, fun h => wrapInt64_of_inInt64 h⟩

/-- C2 witness: `0.9999999999` has ten fractional digits; the tenth is dropped,
`nanos` is 999999999 and nothing is carried into `units`. -/
theorem C2_units_nanos_truncated_witness :
    convertFromContentAPIProduct (sampleRecord "0.9999999999" "USD")
      = some { Id := "OLJCESPC7Z", Name := "Sunglasses", Description := "Add a modern touch",
               Picture := "/static/img/products/sunglasses.jpg",
               PriceUsd := some { CurrencyCode := "USD", Units := 0, Nanos := 999999999 } } ∧
    ∃ p m, convertFromContentAPIProduct (sampleRecord "0.9999999999" "USD") = some p ∧
      p.PriceUsd = some m ∧
      m.Nanos = truncRat ((Decimal.toRat ⟨9999999999, -10⟩
        - (truncRat (Decimal.toRat ⟨9999999999, -10⟩) : ℚ)) * 1000000000) ∧
      m.Units = wrapInt64 (truncRat (Decimal.toRat ⟨9999999999, -10⟩)) ∧
      (inInt64 (truncRat (Decimal.toRat ⟨9999999999, -10⟩)) →
        m.Units = truncRat (Decimal.toRat ⟨9999999999, -10⟩)) :=
  ⟨by decide, C2_units_nanos_truncated (sampleRecord "0.9999999999" "USD") ⟨9999999999, -10⟩ rfl⟩

/-- C2 counterexample: the price `9223372036854775808` (2^63) parses, its
truncation is 2^63, and `units` is -2^63. -/
theorem C2_counterexample_units_wrap :
    NewFromString (sampleRecord "9223372036854775808" "USD").Price.Value
      = .ok ⟨9223372036854775808, 0⟩ ∧
    convertFromContentAPIProduct (sampleRecord "9223372036854775808" "USD")
      = some { Id := "OLJCESPC7Z", Name := "Sunglasses", Description := "Add a modern touch",
               Picture := "/static/img/products/sunglasses.jpg",
               PriceUsd := some { CurrencyCode := "USD", Units := -9223372036854775808, Nanos := 0 } } ∧
    truncRat (Decimal.toRat ⟨9223372036854775808, 0⟩) = 9223372036854775808 ∧
    (-9223372036854775808 : Int) ≠ truncRat (Decimal.toRat ⟨9223372036854775808, 0⟩) := by
  have h : truncRat (Decimal.toRat ⟨9223372036854775808, 0⟩) = 9223372036854775808 := by
    rw [truncRat_toRat]; decide
  refine ⟨rfl, by decide, h, ?_⟩
  rw [h]
  decide

/-- C9, as amended: when the price string is accepted by the decimal parser,
`nanos` lies in `[0, 10^9)` if the value is not negative and in `(-10^9, 0]` if
it is negative. -/
theorem C9_nanos_range_by_sign (cp : contentAPIProduct) (d : Decimal)
    (hparse : NewFromString cp.Price.Value = .ok d) :
    ∃ p m, convertFromContentAPIProduct cp = some p ∧ p.PriceUsd = some m ∧
      (0 ≤ d.toRat → 0 ≤ m.Nanos ∧ m.Nanos < 1000000000) ∧
      (d.toRat < 0 → -1000000000 < m.Nanos ∧ m.Nanos ≤ 0) :=
  ⟨_, _, convert_of_parse cp d hparse, rfl, (nanos_bounds d.toRat).1, (nanos_bounds d.toRat).2⟩

/-- C9 witness: the record priced `1599.99`, whose nanos are 990000000. -/
theorem C9_nanos_range_witness :
    NewFromString (sampleRecord "1599.99" "EUR").Price.Value = .ok ⟨159999, -2⟩ ∧
    (sampleRecord "1599.99" "EUR" |> convertFromContentAPIProduct)
      = some { Id := "OLJCESPC7Z", Name := "Sunglasses", Description := "Add a modern touch",
               Picture := "/static/img/products/sunglasses.jpg",
               PriceUsd := some { CurrencyCode := "EUR", Units := 1599, Nanos := 990000000 } } ∧
    ∃ p m, convertFromContentAPIProduct (sampleRecord "1599.99" "EUR") = some p ∧
      p.PriceUsd = some m ∧
      (0 ≤ Decimal.toRat ⟨159999, -2⟩ → 0 ≤ m.Nanos ∧ m.Nanos < 1000000000) ∧
      (Decimal.toRat ⟨159999, -2⟩ < 0 → -1000000000 < m.Nanos ∧ m.Nanos ≤ 0) :=
  ⟨rfl, by decide, C9_nanos_range_by_sign (sampleRecord "1599.99" "EUR") ⟨159999, -2⟩ rfl⟩

/-- C9 counterexample: the price `-1.5` is a valid numeral and its `nanos` is
-500000000, outside `[0, 10^9)`. -/
theorem C9_counterexample_negative_nanos :
    NewFromString (sampleRecord "-1.5" "USD").Price.Value = .ok ⟨-15, -1⟩ ∧
    convertFromContentAPIProduct (sampleRecord "-1.5" "USD")
      = some { Id := "OLJCESPC7Z", Name := "Sunglasses", Description := "Add a modern touch",
               Picture := "/static/img/products/sunglasses.jpg",
               PriceUsd := some { CurrencyCode := "USD", Units := -1, Nanos := -500000000 } } ∧
    ¬ ((0 : Int) ≤ -500000000 ∧ (-500000000 : Int) < 1000000000) :=
  ⟨rfl, by decide, by decide⟩

/-- C10: every record priced `19.99` in `USD` converts to a product whose
`Money` has units 19, nanos 990000000 and currency code `USD`. -/
theorem C10_price_19_99 (offerId title description imageLink : String)
    (productTypes : List String) :
    convertFromContentAPIProduct
        { OfferId := offerId, Title := title, Description := description,
          ImageLink := imageLink, Price := { Value := "19.99", Currency := "USD" },
          ProductTypes := productTypes }
      = some { Id := offerId, Name := title, Description := description, Picture := imageLink,
               PriceUsd := some { CurrencyCode := "USD", Units := 19, Nanos := 990000000 } } := by
  rfl

/-! ## The catalog store: lemmas -/

theorem parseCatalog_cached (w : World) (s : Server)
    (hr : w.reloadCatalog = false) (hs : s.p.catalog.Products ≠ []) :
    parseCatalog w s = (s.p.catalog.Products, s) := by
  unfold parseCatalog
  have : ¬ (s.p.catalog.Products.length = 0) := by
    intro h
    exact hs (List.length_eq_zero.mp h)
  simp [hr, this]

theorem parseCatalog_fetch (w : World) (s : Server)
    (h : w.reloadCatalog = true ∨ s.p.catalog.Products = []) :
    parseCatalog w s =
      ((match (w.readProductsAPI s.fetches s.p.catalog).2 with
        | some _ => []
        | none => (w.readProductsAPI s.fetches s.p.catalog).1.Products),
       { p := { catalog := (w.readProductsAPI s.fetches s.p.catalog).1 },
         fetches := s.fetches + 1 }) := by
  unfold parseCatalog
  have hc : (w.reloadCatalog || s.p.catalog.Products.length == 0) = true := by
    rcases h with h | h
    · simp [h]
    · simp [h]
  rw [if_pos hc]
  generalize w.readProductsAPI s.fetches s.p.catalog = r
  rcases r with ⟨c, _ | e⟩ <;> rfl

theorem afterCalls_cached (w : World) (s : Server)
    (hr : w.reloadCatalog = false) (hs : s.p.catalog.Products ≠ []) (n : Nat) :
    afterCalls w n s = s := by
  induction n with
  | zero => rfl
  | succ n ih =>
    show afterCalls w n (parseCatalog w s).2 = s
    rw [parseCatalog_cached w s hr hs]
    exact ih

/-- With the flag off and a stored snapshot that is not empty, every call
returns the stored snapshot. -/
theorem stable_of_cached (w : World) (s : Server)
    (hr : w.reloadCatalog = false) (hs : s.p.catalog.Products ≠ []) :
    StableSnapshot w s s.p.catalog.Products := by
  intro n
  rw [afterCalls_cached w s hr hs n, parseCatalog_cached w s hr hs]

/-- With the flag on and a feed that always answers `ps`, every call returns `ps`. -/
theorem stable_of_constant_feed (ps : List Product) (s : Server) :
    StableSnapshot (constantWorld true ps) s ps := by
  intro n
  rw [parseCatalog_fetch _ _ (Or.inl rfl)]
  rfl

theorem stable_step {w : World} {s : Server} {snap : List Product}
    (h : StableSnapshot w s snap) : StableSnapshot w (parseCatalog w s).2 snap :=
  fun n => h (n + 1)

theorem scanLast_cons (id : String) (found : Option Product) (x : Product)
    (xs : List Product) :
    scanLast id found (x :: xs) = scanLast id (if id = x.Id then some x else found) xs := rfl

/-- The loop of `GetProduct` over a stable snapshot ends without panic and
computes the last-match scan of the remaining elements. -/
theorem loop_stable (w : World) (id : String) (snap : List Product) :
    ∀ (fuel i : Nat) (found : Option Product) (s : Server),
      StableSnapshot w s snap → snap.length < fuel + i → i ≤ snap.length →
      ∃ s1, GetProduct.loop w id fuel i found s
        = some (scanLast id found (snap.drop i), false, s1) := by
  intro fuel
  induction fuel with
  | zero =>
    intro i found s _ h1 h2
    omega
  | succ fuel ih =>
    intro i found s hst h1 h2
    have hs1 := stable_step hst
    have hs2 := stable_step hs1
    have e1 : (parseCatalog w s).1 = snap := hst 0
    have e2 : (parseCatalog w (parseCatalog w s).2).1 = snap := hs1 0
    have e3 : (parseCatalog w (parseCatalog w (parseCatalog w s).2).2).1 = snap := hs2 0
    unfold GetProduct.loop
    simp only [e1, e2, e3]
    by_cases hi : i < snap.length
    · rw [if_pos hi]
      have hget : snap[i]? = some snap[i] := List.getElem?_eq_getElem hi
      have hdrop : snap.drop i = snap[i] :: snap.drop (i + 1) := List.drop_eq_getElem_cons hi
      rw [hget, hdrop, scanLast_cons]
      simp only
      by_cases hid : id = snap[i].Id
      · rw [if_pos hid, if_pos hid]
        exact ih (i + 1) _ _ (stable_step hs2) (by omega) (by omega)
      · rw [if_neg hid, if_neg hid]
        exact ih (i + 1) _ _ hs2 (by omega) (by omega)
    · rw [if_neg hi]
      have : snap.drop i = [] := List.drop_eq_nil_of_le (by omega)
      rw [this]
      exact ⟨_, rfl⟩

theorem GetProduct_stable (fuel : Nat) (w : World) (s : Server) (req : GetProductRequest)
    (snap : List Product) (hst : StableSnapshot w s snap) (hfuel : snap.length < fuel) :
    ∃ s1, GetProduct fuel w s req = some (answerOf req.Id (scanLast req.Id none snap), s1) := by
  obtain ⟨s1, h⟩ := loop_stable w req.Id snap fuel 0 none s hst (by omega) (by omega)
  refine ⟨s1, ?_⟩
  unfold GetProduct
  rw [h, List.drop_zero]
  cases scanLast req.Id none snap <;> rfl

/-- What a last-match scan returns: either nothing in the list matches and the
starting value comes back, or the list splits around a matching element with
no match after it, and that element comes back. -/
theorem scanLast_spec (id : String) :
    ∀ (snap : List Product) (found : Option Product),
      (scanLast id found snap = found ∧ ∀ x ∈ snap, x.Id ≠ id) ∨
      (∃ pre p post, snap = pre ++ p :: post ∧ p.Id = id ∧ (∀ x ∈ post, x.Id ≠ id) ∧
        scanLast id found snap = some p) := by
  intro snap
  induction snap with
  | nil =>
    intro found
    exact Or.inl ⟨rfl, fun x hx => by cases hx⟩
  | cons x xs ih =>
    intro found
    rw [scanLast_cons]
    rcases ih (if id = x.Id then some x else found) with ⟨h1, h2⟩ | ⟨pre, p, post, h1, h2, h3, h4⟩
    · by_cases hid : id = x.Id
      · right
        refine ⟨[], x, xs, rfl, hid.symm, h2, ?_⟩
        rw [h1, if_pos hid]
      · left
        refine ⟨by rw [h1, if_neg hid], ?_⟩
        intro y hy
        rcases List.mem_cons.mp hy with rfl | hy
        · exact fun h => hid h.symm
        · exact h2 y hy
    · right
      exact ⟨x :: pre, p, post, by rw [h1]; rfl, h2, h3, h4⟩

theorem containsChars_iff_infix (sub : List Char) :
    ∀ cs : List Char, containsChars cs sub = true ↔ sub <:+: cs := by
  intro cs
  induction cs with
  | nil =>
    unfold containsChars
    rw [List.infix_nil, List.isEmpty_iff]
  | cons c cs ih =>
    unfold containsChars
    rw [Bool.or_eq_true, ih, List.infix_cons_iff, List.isPrefixOf_iff_prefix]

/-- The function `strings.Contains` holds exactly when the second string is a
contiguous block of the first. -/
theorem Contains_iff_infix (s substr : String) :
    Contains s substr = true ↔ substr.data <:+: s.data :=
  containsChars_iff_infix substr.data s.data

theorem search_foldl_eq_filter (f : Product → Bool) (l : List Product) :
    ∀ acc : List Product,
      l.foldl (fun ps product => if f product then ps ++ [product] else ps) acc
        = acc ++ l.filter f := by
  induction l with
  | nil => intro acc; simp
  | cons x xs ih =>
    intro acc
    rw [List.foldl_cons, ih]
    by_cases hx : f x = true
    · simp [hx]
    · simp [hx]

/-! ## The catalog store: claims -/

/-- C4: `SearchProducts` returns without error the snapshot (the result of its
one `parseCatalog` call) filtered, in order, by the predicate: the lower-cased
query is a contiguous block of the lower-cased name or of the lower-cased
description. A product is in the result iff it is in the snapshot and satisfies
the predicate, and the result is a sublist of the snapshot. -/
theorem C4_search_is_filter (w : World) (s : Server) (req : SearchProductsRequest) :
    SearchProducts w s req
      = (.ok { Results := (parseCatalog w s).1.filter (searchMatches w req.Query) },
         (parseCatalog w s).2) ∧
    (∀ product, searchMatches w req.Query product = true ↔
      ((ToLower w req.Query).data <:+: (ToLower w product.Name).data ∨
       (ToLower w req.Query).data <:+: (ToLower w product.Description).data)) ∧
    (∀ product, product ∈ (parseCatalog w s).1.filter (searchMatches w req.Query) ↔
      (product ∈ (parseCatalog w s).1 ∧
        ((ToLower w req.Query).data <:+: (ToLower w product.Name).data ∨
         (ToLower w req.Query).data <:+: (ToLower w product.Description).data))) ∧
    List.Sublist ((parseCatalog w s).1.filter (searchMatches w req.Query)) (parseCatalog w s).1 := by
  have hm : ∀ product, searchMatches w req.Query product = true ↔
      ((ToLower w req.Query).data <:+: (ToLower w product.Name).data ∨
       (ToLower w req.Query).data <:+: (ToLower w product.Description).data) := by
    intro product
    unfold searchMatches
    rw [Bool.or_eq_true, Contains_iff_infix, Contains_iff_infix]
  refine ⟨?_, hm, ?_, List.filter_sublist _⟩
  · unfold SearchProducts
    simp only [search_foldl_eq_filter, List.nil_append]
  · intro product
    rw [List.mem_filter, hm]

theorem SearchProducts_nil (w : World) (s : Server) (req : SearchProductsRequest)
    (h : (parseCatalog w s).1 = []) :
    (SearchProducts w s req).1 = .ok { Results := [] } := by
  unfold SearchProducts
  simp only [h, List.foldl_nil]

/-- C7, as amended: when `parseCatalog` performs a fetch (the flag is on or the
stored snapshot is empty) and the fetch fails, or succeeds leaving zero
products, `ListProducts` returns the empty sequence with no error and
`SearchProducts` the empty result with no error. After a failed fetch the
stored catalog is the one the fetch left behind, `parseCatalog` itself storing
nothing: the stored snapshot is empty when it was empty before the call and the
failed fetch did not change the catalog. -/
theorem C7_failed_or_empty_fetch (w : World) (s : Server) (req : SearchProductsRequest)
    (hfetch : w.reloadCatalog = true ∨ s.p.catalog.Products = []) :
    (((w.readProductsAPI s.fetches s.p.catalog).2 ≠ none ∨
        ((w.readProductsAPI s.fetches s.p.catalog).2 = none ∧
          (w.readProductsAPI s.fetches s.p.catalog).1.Products = [])) →
      (ListProducts w s).1 = .ok { Products := [] } ∧
      (SearchProducts w s req).1 = .ok { Results := [] }) ∧
    ((w.readProductsAPI s.fetches s.p.catalog).2 ≠ none →
      (ListProducts w s).2.p.catalog = (w.readProductsAPI s.fetches s.p.catalog).1 ∧
      (SearchProducts w s req).2.p.catalog = (w.readProductsAPI s.fetches s.p.catalog).1 ∧
      (s.p.catalog.Products = [] →
        (w.readProductsAPI s.fetches s.p.catalog).1 = s.p.catalog →
        (ListProducts w s).2.p.catalog.Products = [])) := by
  have hp := parseCatalog_fetch w s hfetch
  constructor
  · intro h
    have hnil : (parseCatalog w s).1 = [] := by
      rw [hp]
      rcases h with h | ⟨h1, h2⟩
      · cases hr : (w.readProductsAPI s.fetches s.p.catalog).2 with
        | none => exact absurd hr h
        | some e => rfl
      · simp only [h1, h2]
    refine ⟨?_, SearchProducts_nil w s req hnil⟩
    unfold ListProducts
    simp only [hnil]
  · intro _
    refine ⟨?_, ?_, ?_⟩
    · unfold ListProducts
      simp only [hp]
    · unfold SearchProducts
      simp only [hp]
    · intro h1 h2
      unfold ListProducts
      simp only [hp, h2, h1]

/-- C7 witness: lazy loading from an empty catalog while the feed is down. -/
theorem C7_failed_or_empty_fetch_witness :
    ListProducts (failingWorld false) {} = (.ok { Products := [] }, { fetches := 1 }) ∧
    ((((failingWorld false).readProductsAPI 0 {}).2 ≠ none ∨
        (((failingWorld false).readProductsAPI 0 {}).2 = none ∧
          ((failingWorld false).readProductsAPI 0 {}).1.Products = [])) →
      (ListProducts (failingWorld false) {}).1 = .ok { Products := [] } ∧
      (SearchProducts (failingWorld false) {} { Query := "shirt" }).1 = .ok { Results := [] }) ∧
    (((failingWorld false).readProductsAPI 0 {}).2 ≠ none →
      (ListProducts (failingWorld false) {}).2.p.catalog
        = ((failingWorld false).readProductsAPI 0 {}).1 ∧
      (SearchProducts (failingWorld false) {} { Query := "shirt" }).2.p.catalog
        = ((failingWorld false).readProductsAPI 0 {}).1 ∧
      ((({} : Server).p.catalog.Products = []) →
        ((failingWorld false).readProductsAPI 0 {}).1 = ({} : Server).p.catalog →
        (ListProducts (failingWorld false) {}).2.p.catalog.Products = [])) :=
  ⟨by decide,
   C7_failed_or_empty_fetch (failingWorld false) {} { Query := "shirt" } (Or.inr rfl)⟩

/-- C7 counterexample: reload on every access, a stored snapshot of two
products, and a feed that fails without touching the catalog. The fetch is made
and fails, `ListProducts` answers with no products, and the stored snapshot
still holds the two products. -/
theorem C7_counterexample_stale_snapshot :
    (failingWorld true).reloadCatalog = true ∧
    ((failingWorld true).readProductsAPI 0 { Products := duplicateSnapshot }).2 ≠ none ∧
    ListProducts (failingWorld true) { p := { catalog := { Products := duplicateSnapshot } } }
      = (.ok { Products := [] },
         { p := { catalog := { Products := duplicateSnapshot } }, fetches := 1 }) ∧
    (ListProducts (failingWorld true)
        { p := { catalog := { Products := duplicateSnapshot } } }).2.p.catalog.Products ≠ [] := by
  refine ⟨rfl, by decide, by decide, by decide⟩

/-- C8: `parseCatalog` fetches from the feed iff `reloadCatalog` is set or the
stored snapshot is empty. With the flag off and a stored snapshot that is not
empty the feed is not called, the server is unchanged, and `ListProducts`
returns the stored snapshot as it is, whatever the feed would answer. When a
fetch is made and succeeds, the snapshot returned and the snapshot stored are
the products the fetch left in the catalog. -/
theorem C8_fetch_iff_reload_or_empty (w : World) (s : Server) :
    ((parseCatalog w s).2.fetches = s.fetches + 1 ↔
      (w.reloadCatalog = true ∨ s.p.catalog.Products = [])) ∧
    ((parseCatalog w s).2.fetches = s.fetches ↔
      (w.reloadCatalog = false ∧ s.p.catalog.Products ≠ [])) ∧
    ((w.reloadCatalog = false ∧ s.p.catalog.Products ≠ []) →
      parseCatalog w s = (s.p.catalog.Products, s) ∧
      ListProducts w s = (.ok { Products := s.p.catalog.Products }, s) ∧
      ∀ w2 : World, w2.reloadCatalog = false →
        ListProducts w2 s = (.ok { Products := s.p.catalog.Products }, s)) ∧
    ((w.reloadCatalog = true ∨ s.p.catalog.Products = []) →
      (w.readProductsAPI s.fetches s.p.catalog).2 = none →
      (parseCatalog w s).1 = (w.readProductsAPI s.fetches s.p.catalog).1.Products ∧
      (parseCatalog w s).2.p.catalog = (w.readProductsAPI s.fetches s.p.catalog).1 ∧
      ListProducts w s
        = (.ok { Products := (w.readProductsAPI s.fetches s.p.catalog).1.Products },
           { p := { catalog := (w.readProductsAPI s.fetches s.p.catalog).1 },
             fetches := s.fetches + 1 })) := by
  have hcached : ∀ w2 : World, (w2.reloadCatalog = false ∧ s.p.catalog.Products ≠ []) →
      ListProducts w2 s = (.ok { Products := s.p.catalog.Products }, s) := by
    intro w2 h
    unfold ListProducts
    rw [parseCatalog_cached w2 s h.1 h.2]
  by_cases hc : w.reloadCatalog = true ∨ s.p.catalog.Products = []
  · have hp := parseCatalog_fetch w s hc
    have hno : ¬ (w.reloadCatalog = false ∧ s.p.catalog.Products ≠ []) := by
      rintro ⟨h1, h2⟩
      rcases hc with h | h
      · rw [h1] at h; cases h
      · exact h2 h
    refine ⟨⟨fun _ => hc, fun _ => by rw [hp]⟩, ⟨fun h => ?_, fun h => absurd h hno⟩,
      fun h => absurd h hno, ?_⟩
    · rw [hp] at h
      simp at h
    · intro _ hok
      have e : parseCatalog w s
          = ((w.readProductsAPI s.fetches s.p.catalog).1.Products,
             { p := { catalog := (w.readProductsAPI s.fetches s.p.catalog).1 },
               fetches := s.fetches + 1 }) := by
        rw [hp]
        simp only [hok]
      refine ⟨by rw [e], by rw [e], ?_⟩
      unfold ListProducts
      rw [e]
  · have hcc : w.reloadCatalog = false ∧ s.p.catalog.Products ≠ [] := by
      constructor
      · cases hw : w.reloadCatalog with
        | false => rfl
        | true => exact absurd (Or.inl hw) hc
      · exact fun h => hc (Or.inr h)
    have hp := parseCatalog_cached w s hcc.1 hcc.2
    refine ⟨⟨fun h => ?_, fun h => absurd h hc⟩, ⟨fun _ => hcc, fun _ => by rw [hp]⟩,
      fun _ => ⟨hp, hcached w hcc, fun w2 h2 => hcached w2 ⟨h2, hcc.2⟩⟩, fun h => absurd h hc⟩
    rw [hp] at h
    simp at h

/-! ## Search: further lemmas and claims -/

theorem containsChars_nil (cs : List Char) : containsChars cs [] = true := by
  cases cs <;> rfl

theorem ToLower_empty (w : World) : ToLower w "" = "" := rfl

theorem searchMatches_empty (w : World) (product : Product) :
    searchMatches w "" product = true := by
  unfold searchMatches Contains
  rw [ToLower_empty]
  show (containsChars _ [] || containsChars _ []) = true
  rw [containsChars_nil, Bool.true_or]

theorem ToLower_infix (w : World) {q1 q2 : String} (h : q1.data <:+: q2.data) :
    (ToLower w q1).data <:+: (ToLower w q2).data :=
  List.IsInfix.map w.unicodeToLower h

theorem searchMatches_antitone (w : World) {q1 q2 : String} (h : q1.data <:+: q2.data)
    (product : Product) (hm : searchMatches w q2 product = true) :
    searchMatches w q1 product = true := by
  unfold searchMatches at hm ⊢
  rw [Bool.or_eq_true, Contains_iff_infix, Contains_iff_infix] at hm ⊢
  have hq := ToLower_infix w h
  rcases hm with hm | hm
  · exact Or.inl (hq.trans hm)
  · exact Or.inr (hq.trans hm)

theorem SearchProducts_eq_filter (w : World) (s : Server) (req : SearchProductsRequest) :
    SearchProducts w s req
      = (.ok { Results := (parseCatalog w s).1.filter (searchMatches w req.Query) },
         (parseCatalog w s).2) := by
  unfold SearchProducts
  simp only [search_foldl_eq_filter, List.nil_append]

/-- C11: `SearchProducts` with the empty query returns every product of the
snapshot in snapshot order, the same products and the same server state as
`ListProducts`, because the empty string is found in every name. -/
theorem C11_empty_query_returns_all (w : World) (s : Server) :
    SearchProducts w s { Query := "" }
      = (.ok { Results := (parseCatalog w s).1 }, (parseCatalog w s).2) ∧
    (∀ product : Product, Contains (ToLower w product.Name) (ToLower w "") = true) ∧
    ListProducts w s = (.ok { Products := (parseCatalog w s).1 }, (parseCatalog w s).2) := by
  refine ⟨?_, ?_, rfl⟩
  · rw [SearchProducts_eq_filter]
    have : (parseCatalog w s).1.filter (searchMatches w "") = (parseCatalog w s).1 :=
      List.filter_eq_self.mpr (fun a _ => searchMatches_empty w a)
    rw [this]
  · intro product
    rw [ToLower_empty]
    exact containsChars_nil _

/-- C12: `SearchProducts` is case-insensitive. Two queries with the same
lower-casing give the same response, and two products whose names have the
same lower-casing and whose descriptions have the same lower-casing are
matched by the same queries. -/
theorem C12_search_case_insensitive (w : World) (s : Server) (q1 q2 : String)
    (hq : ToLower w q1 = ToLower w q2) :
    SearchProducts w s { Query := q1 } = SearchProducts w s { Query := q2 } ∧
    ∀ (p1 p2 : Product) (q : String),
      ToLower w p1.Name = ToLower w p2.Name →
      ToLower w p1.Description = ToLower w p2.Description →
      searchMatches w q p1 = searchMatches w q p2 := by
  constructor
  · have hm : searchMatches w q1 = searchMatches w q2 := by
      funext product
      unfold searchMatches
      rw [hq]
    rw [SearchProducts_eq_filter, SearchProducts_eq_filter]
    simp only [hm]
  · intro p1 p2 q hn hd
    unfold searchMatches
    rw [hn, hd]

/-- C12 witness: the queries `shirt` and `SHIRT` both return the product named
`Shirt` and leave out the mug. -/
theorem C12_search_case_insensitive_witness :
    ToLower (constantWorld true shirtSnapshot) "shirt"
      = ToLower (constantWorld true shirtSnapshot) "SHIRT" ∧
    (SearchProducts (constantWorld true shirtSnapshot) {} { Query := "shirt" }).1
      = .ok { Results := [{ Id := "SHIRT1", Name := "Shirt", Description := "Cotton tee" }] } ∧
    (SearchProducts (constantWorld true shirtSnapshot) {} { Query := "shirt" }
        = SearchProducts (constantWorld true shirtSnapshot) {} { Query := "SHIRT" } ∧
      ∀ (p1 p2 : Product) (q : String),
        ToLower (constantWorld true shirtSnapshot) p1.Name
          = ToLower (constantWorld true shirtSnapshot) p2.Name →
        ToLower (constantWorld true shirtSnapshot) p1.Description
          = ToLower (constantWorld true shirtSnapshot) p2.Description →
        searchMatches (constantWorld true shirtSnapshot) q p1
          = searchMatches (constantWorld true shirtSnapshot) q p2) :=
  ⟨by decide, by decide,
   C12_search_case_insensitive (constantWorld true shirtSnapshot) {} "shirt" "SHIRT"
    (by decide)⟩

/-- C20: `SearchProducts` is antitone in the query. When `q1` is a contiguous
block of `q2`, every product matched by `q2` is matched by `q1`, every product
returned for `q2` is returned for `q1`, and the result for `q2` is a sublist of
the result for `q1`. -/
theorem C20_search_antitone (w : World) (s : Server) (q1 q2 : String)
    (h : q1.data <:+: q2.data) :
    ∃ r1 r2 s1,
      SearchProducts w s { Query := q1 } = (.ok { Results := r1 }, s1) ∧
      SearchProducts w s { Query := q2 } = (.ok { Results := r2 }, s1) ∧
      (∀ product, product ∈ r2 → product ∈ r1) ∧
      List.Sublist r2 r1 := by
  have hsub : List.Sublist ((parseCatalog w s).1.filter (searchMatches w q2))
      ((parseCatalog w s).1.filter (searchMatches w q1)) :=
    List.monotone_filter_right _ (fun a ha => searchMatches_antitone w h a ha)
  exact ⟨_, _, _, SearchProducts_eq_filter w s _, SearchProducts_eq_filter w s _,
    fun product hp => hsub.subset hp, hsub⟩

/-- C20 witness: `shirt` is a block of `t-shirts`. -/
theorem C20_search_antitone_witness :
    (SearchProducts (constantWorld true shirtSnapshot) {} { Query := "t-shirts" }).1
      = .ok { Results := [] } ∧
    ∃ r1 r2 s1,
      SearchProducts (constantWorld true shirtSnapshot) {} { Query := "shirt" }
        = (.ok { Results := r1 }, s1) ∧
      SearchProducts (constantWorld true shirtSnapshot) {} { Query := "t-shirts" }
        = (.ok { Results := r2 }, s1) ∧
      (∀ product, product ∈ r2 → product ∈ r1) ∧
      List.Sublist r2 r1 :=
  ⟨by decide,
   C20_search_antitone (constantWorld true shirtSnapshot) {} "shirt" "t-shirts"
    ⟨['t', '-'], ['s'], by decide⟩⟩

/-! ## Health checking: claim -/

/-- C16: `Check` answers `SERVING` with no error for every request and every
server state, whatever the feed and the stored catalog, and leaves the server
as it was; it never answers `NOT_SERVING`. -/
theorem C16_check_always_serving (w : World) (s : Server) (req : HealthCheckRequest) :
    Check w s req = (.ok { Status := .SERVING }, s) ∧
    (Check w s req).1 ≠ .ok { Status := .NOT_SERVING } ∧
    (Check w s req).1 ≠ .ok { Status := .UNKNOWN } ∧
    (Check w s req).1 ≠ .ok { Status := .SERVICE_UNKNOWN } ∧
    (∀ st, (Check w s req).1 ≠ .err st) := by
  refine ⟨rfl, ?_, ?_, ?_, ?_⟩
  · intro h; cases h
  · intro h; cases h
  · intro h; cases h
  · intro st h; cases h

/-! ## The price normaliser: further lemmas and claims -/

theorem scaled_intPart_nonneg (v : Int) (k : Nat) :
    ∃ scaled,
      (Decimal.Sub ⟨v, (k : Int)⟩ (NewFromInt (Decimal.IntPart ⟨v, (k : Int)⟩))).Mul
          (NewFromInt 1000000000) = some scaled ∧
      scaled.IntPart
        = truncRat ((Decimal.toRat ⟨v, (k : Int)⟩
            - (truncRat (Decimal.toRat ⟨v, (k : Int)⟩) : ℚ)) * 1000000000) := by
  have hI : Decimal.IntPart ⟨v, (k : Int)⟩ = wrapInt64 (v * 10 ^ k) := by
    unfold Decimal.IntPart
    rw [rescale_zero_value_nonneg, bigIntInt64_eq_wrap]
  have hT : truncRat (Decimal.toRat ⟨v, (k : Int)⟩) = v * 10 ^ k := by
    rw [toRat_nonneg, truncRat_intCast]
  refine ⟨⟨(v * 10 ^ k - wrapInt64 (v * 10 ^ k)) * 1000000000, 0⟩, ?_, ?_⟩
  · rw [hI, sub_nonneg]
    simp [Decimal.Mul, NewFromInt]
  · rw [hT, toRat_nonneg]
    have h0 : Decimal.IntPart ⟨(v * 10 ^ k - wrapInt64 (v * 10 ^ k)) * 1000000000, 0⟩ = 0 := by
      unfold Decimal.IntPart
      have := rescale_zero_value_nonneg ((v * 10 ^ k - wrapInt64 (v * 10 ^ k)) * 1000000000) 0
      simp only [Nat.cast_zero, pow_zero, mul_one] at this
      rw [this, bigIntInt64_eq_wrap, wrapInt64_diff_mul]
    rw [h0]
    simp [truncRat]

theorem scaled_intPart_neg (v : Int) (k : Nat) (hk : ((k + 1 : Nat) : Int) ≤ 2147483648) :
    ∃ scaled,
      (Decimal.Sub ⟨v, -((k + 1 : Nat) : Int)⟩
          (NewFromInt (Decimal.IntPart ⟨v, -((k + 1 : Nat) : Int)⟩))).Mul
          (NewFromInt 1000000000) = some scaled ∧
      scaled.IntPart
        = truncRat ((Decimal.toRat ⟨v, -((k + 1 : Nat) : Int)⟩
            - (truncRat (Decimal.toRat ⟨v, -((k + 1 : Nat) : Int)⟩) : ℚ)) * 1000000000) := by
  have hTpos : (0 : Int) < 10 ^ (k + 1) := by positivity
  generalize hTdef : (10 : Int) ^ (k + 1) = T at hTpos
  have hI : Decimal.IntPart ⟨v, -((k + 1 : Nat) : Int)⟩ = wrapInt64 (v.tdiv T) := by
    unfold Decimal.IntPart
    rw [rescale_zero_value_neg, bigIntInt64_eq_wrap, hTdef]
  have hQ : truncRat (Decimal.toRat ⟨v, -((k + 1 : Nat) : Int)⟩) = v.tdiv T := by
    rw [toRat_neg, hTdef, truncRat_div _ _ hTpos]
  obtain ⟨bpos, bneg⟩ := tdiv_rem_bounds v T hTpos
  obtain ⟨spos, sneg⟩ := wrapInt64_sign (v.tdiv T)
  have hsplit : (v - wrapInt64 (v.tdiv T) * T) * 1000000000
      = (v - T * v.tdiv T) * 1000000000
        + ((v.tdiv T - wrapInt64 (v.tdiv T)) * 1000000000) * T := by ring
  have hsign : (0 ≤ (v - T * v.tdiv T) * 1000000000
        ∧ 0 ≤ (v.tdiv T - wrapInt64 (v.tdiv T)) * 1000000000)
      ∨ ((v - T * v.tdiv T) * 1000000000 ≤ 0
        ∧ (v.tdiv T - wrapInt64 (v.tdiv T)) * 1000000000 ≤ 0) := by
    rcases le_total 0 v with hv | hv
    · obtain ⟨h1, h2, _⟩ := bpos hv
      have := spos h1
      left; constructor <;> omega
    · obtain ⟨h1, h2, _⟩ := bneg hv
      have := sneg h1
      right; constructor <;> omega
  have hrange : -1000000000 < ((v - T * v.tdiv T) * 1000000000).tdiv T
      ∧ ((v - T * v.tdiv T) * 1000000000).tdiv T < 1000000000 := by
    apply tdiv_abs_lt _ _ _ hTpos
    · rcases le_total 0 v with hv | hv
      · obtain ⟨_, h2, h3⟩ := bpos hv; nlinarith
      · obtain ⟨_, h2, h3⟩ := bneg hv; nlinarith
    · rcases le_total 0 v with hv | hv
      · obtain ⟨_, h2, h3⟩ := bpos hv; nlinarith
      · obtain ⟨_, h2, h3⟩ := bneg hv; nlinarith
  refine ⟨⟨(v - wrapInt64 (v.tdiv T) * T) * 1000000000, -((k + 1 : Nat) : Int)⟩, ?_, ?_⟩
  · rw [hI, sub_neg, hTdef]
    have h1 : ¬ (-((k + 1 : Nat) : Int) + 0 > 2147483647
        ∨ -((k + 1 : Nat) : Int) + 0 < -2147483648) := by
      omega
    simp only [Decimal.Mul, NewFromInt, add_zero] at h1 ⊢
    rw [if_neg h1]
  · have hIP : Decimal.IntPart
          ⟨(v - wrapInt64 (v.tdiv T) * T) * 1000000000, -((k + 1 : Nat) : Int)⟩
        = ((v - T * v.tdiv T) * 1000000000).tdiv T := by
      unfold Decimal.IntPart
      rw [rescale_zero_value_neg, bigIntInt64_eq_wrap, hTdef, hsplit,
        tdiv_add_mul_same_sign _ _ _ hTpos hsign, wrapInt64_shift]
      exact wrapInt64_of_inInt64 (by unfold inInt64; omega)
    rw [hIP, hQ, toRat_neg, hTdef]
    have hTq : ((T : Int) : ℚ) ≠ 0 := by exact_mod_cast hTpos.ne'
    have e : ((v : ℚ) / (T : ℚ) - ((v.tdiv T : Int) : ℚ)) * 1000000000
        = (((v - T * v.tdiv T) * 1000000000 : Int) : ℚ) / (T : ℚ) := by
      push_cast
      field_simp
    rw [e, truncRat_div _ _ hTpos]

/-- The `int64` handed to the `int32` conversion is already the truncated
billionths of the fractional part. -/
theorem scaled_intPart (d : Decimal) (hexp : inInt32 d.exp) :
    ∃ scaled,
      (d.Sub (NewFromInt d.IntPart)).Mul (NewFromInt 1000000000) = some scaled ∧
      scaled.IntPart = truncRat ((d.toRat - (truncRat d.toRat : ℚ)) * 1000000000) := by
  obtain ⟨v, e⟩ := d
  unfold inInt32 at hexp
  simp only at hexp
  rcases le_or_lt 0 e with he | he
  · obtain ⟨k, rfl⟩ := Int.eq_ofNat_of_zero_le he
    exact scaled_intPart_nonneg v k
  · obtain ⟨k, rfl⟩ : ∃ k : Nat, e = -((k + 1 : Nat) : Int) := ⟨(-e - 1).toNat, by omega⟩
    exact scaled_intPart_neg v k (by omega)

/-- C13: for a record whose price string is valid the converter copies
`Id = OfferId`, `Name = Title`, `Description = Description`,
`Picture = ImageLink` and `CurrencyCode = Price.Currency` unchanged, leaves
`Categories` empty, and the product does not depend on `ProductTypes`. -/
theorem C13_fields_copied_tags_dropped (cp : contentAPIProduct)
    (hvalid : validDecimal cp.Price.Value) :
    ∃ p m, convertFromContentAPIProduct cp = some p ∧ p.PriceUsd = some m ∧
      p.Id = cp.OfferId ∧ p.Name = cp.Title ∧ p.Description = cp.Description ∧
      p.Picture = cp.ImageLink ∧ m.CurrencyCode = cp.Price.Currency ∧
      p.Categories = [] ∧
      ∀ productTypes : List String,
        convertFromContentAPIProduct { cp with ProductTypes := productTypes } = some p := by
  obtain ⟨d, hd⟩ := hvalid
  refine ⟨_, _, convert_of_parse cp d hd, rfl, rfl, rfl, rfl, rfl, rfl, rfl, ?_⟩
  intro productTypes
  exact convert_of_parse { cp with ProductTypes := productTypes } d hd

/-- C13 witness: the sample record priced `12.50` in `GBP`, with its category
tag and with two other tags. -/
theorem C13_fields_copied_witness :
    convertFromContentAPIProduct
        { sampleRecord "12.50" "GBP" with ProductTypes := ["home", "garden"] }
      = convertFromContentAPIProduct (sampleRecord "12.50" "GBP") ∧
    ∃ p m, convertFromContentAPIProduct (sampleRecord "12.50" "GBP") = some p ∧
      p.PriceUsd = some m ∧
      p.Id = "OLJCESPC7Z" ∧ p.Name = "Sunglasses" ∧ p.Description = "Add a modern touch" ∧
      p.Picture = "/static/img/products/sunglasses.jpg" ∧ m.CurrencyCode = "GBP" ∧
      p.Categories = [] ∧
      ∀ productTypes : List String,
        convertFromContentAPIProduct
          { sampleRecord "12.50" "GBP" with ProductTypes := productTypes } = some p :=
  ⟨by decide, C13_fields_copied_tags_dropped (sampleRecord "12.50" "GBP") ⟨⟨1250, -2⟩, by rfl⟩⟩

/-- C17: for a record whose price string is valid and whose integer part fits
in an `int64`, the `int64` handed to the `int32` conversion is
`trunc((v - trunc v) * 10^9)`, its absolute value is below `10^9`, so it is in
the `int32` range and `nanos` equals it; and `nanos` never has the opposite
sign to the value or to `units`. -/
theorem C17_nanos_fits_and_sign (cp : contentAPIProduct) (d : Decimal)
    (hparse : NewFromString cp.Price.Value = .ok d)
    (hrange : inInt64 (truncRat d.toRat)) :
    ∃ p m scaled, convertFromContentAPIProduct cp = some p ∧ p.PriceUsd = some m ∧
      (d.Sub (NewFromInt d.IntPart)).Mul (NewFromInt 1000000000) = some scaled ∧
      scaled.IntPart = truncRat ((d.toRat - (truncRat d.toRat : ℚ)) * 1000000000) ∧
      -1000000000 < scaled.IntPart ∧ scaled.IntPart < 1000000000 ∧
      inInt32 scaled.IntPart ∧ m.Nanos = scaled.IntPart ∧
      m.Units = truncRat d.toRat ∧
      (d.toRat < 0 → m.Nanos ≤ 0 ∧ m.Units ≤ 0) ∧
      (0 < d.toRat → 0 ≤ m.Nanos ∧ 0 ≤ m.Units) := by
  obtain ⟨scaled, hM, hS⟩ := scaled_intPart d (NewFromString_exp_range hparse)
  obtain ⟨hp, hn⟩ := nanos_bounds d.toRat
  obtain ⟨tp, tn⟩ := truncRat_bounds d.toRat
  have hb : -1000000000 < scaled.IntPart ∧ scaled.IntPart < 1000000000 := by
    rw [hS]
    rcases le_or_lt 0 d.toRat with h | h
    · have := hp h
      omega
    · have := hn h
      omega
  refine ⟨_, _, scaled, convert_of_parse cp d hparse, rfl, hM, hS, hb.1, hb.2, ?_, hS.symm,
    wrapInt64_of_inInt64 hrange, ?_, ?_⟩
  · unfold inInt32
    omega
  · intro h
    refine ⟨(hn h).2, ?_⟩
    show wrapInt64 (truncRat d.toRat) ≤ 0
    rw [wrapInt64_of_inInt64 hrange]
    exact (tn h).1
  · intro h
    refine ⟨(hp h.le).1, ?_⟩
    show 0 ≤ wrapInt64 (truncRat d.toRat)
    rw [wrapInt64_of_inInt64 hrange]
    exact (tp h.le).1

/-- C17 witness: the record priced `-1.5`, with units -1 and nanos -500000000. -/
theorem C17_nanos_fits_and_sign_witness :
    NewFromString (sampleRecord "-1.5" "USD").Price.Value = .ok ⟨-15, -1⟩ ∧
    ∃ p m scaled, convertFromContentAPIProduct (sampleRecord "-1.5" "USD") = some p ∧
      p.PriceUsd = some m ∧
      (Decimal.Sub ⟨-15, -1⟩ (NewFromInt (Decimal.IntPart ⟨-15, -1⟩))).Mul
        (NewFromInt 1000000000) = some scaled ∧
      scaled.IntPart = truncRat ((Decimal.toRat ⟨-15, -1⟩
        - (truncRat (Decimal.toRat ⟨-15, -1⟩) : ℚ)) * 1000000000) ∧
      -1000000000 < scaled.IntPart ∧ scaled.IntPart < 1000000000 ∧
      inInt32 scaled.IntPart ∧ m.Nanos = scaled.IntPart ∧
      m.Units = truncRat (Decimal.toRat ⟨-15, -1⟩) ∧
      (Decimal.toRat ⟨-15, -1⟩ < 0 → m.Nanos ≤ 0 ∧ m.Units ≤ 0) ∧
      (0 < Decimal.toRat ⟨-15, -1⟩ → 0 ≤ m.Nanos ∧ 0 ≤ m.Units) :=
  ⟨rfl,
   C17_nanos_fits_and_sign (sampleRecord "-1.5" "USD") ⟨-15, -1⟩ rfl
    (by rw [truncRat_toRat]; decide)⟩

/-! ## The lookup: further lemmas and claims -/

/-- Under a constant feed, a server whose flag is on, or whose stored snapshot
is empty or the feed answer, gets the feed answer from `parseCatalog` and stays
such a server. -/
theorem parseCatalog_constantFeed (w : World) (s : Server) (ps : List Product)
    (hf : ConstantFeed w ps)
    (hs : w.reloadCatalog = true ∨ s.p.catalog.Products = [] ∨ s.p.catalog.Products = ps) :
    (parseCatalog w s).1 = ps ∧
    (w.reloadCatalog = true ∨ (parseCatalog w s).2.p.catalog.Products = [] ∨
      (parseCatalog w s).2.p.catalog.Products = ps) := by
  by_cases hc : w.reloadCatalog = true ∨ s.p.catalog.Products = []
  · rw [parseCatalog_fetch w s hc, hf]
    exact ⟨rfl, Or.inr (Or.inr rfl)⟩
  · have hr : w.reloadCatalog = false := by
      cases hw : w.reloadCatalog with
      | false => rfl
      | true => exact absurd (Or.inl hw) hc
    have hne : s.p.catalog.Products ≠ [] := fun h => hc (Or.inr h)
    have hps : s.p.catalog.Products = ps := by
      rcases hs with h | h | h
      · rw [hr] at h; cases h
      · exact absurd h hne
      · exact h
    rw [parseCatalog_cached w s hr hne]
    exact ⟨hps, Or.inr (Or.inr hps)⟩

theorem stable_of_constantFeed (w : World) (ps : List Product) (hf : ConstantFeed w ps) :
    ∀ (n : Nat) (s : Server),
      (w.reloadCatalog = true ∨ s.p.catalog.Products = [] ∨ s.p.catalog.Products = ps) →
      (parseCatalog w (afterCalls w n s)).1 = ps := by
  intro n
  induction n with
  | zero =>
    intro s hs
    exact (parseCatalog_constantFeed w s ps hf hs).1
  | succ n ih =>
    intro s hs
    exact ih (parseCatalog w s).2 (parseCatalog_constantFeed w s ps hf hs).2

/-- Under a constant feed every server has a stable snapshot: the stored one
when the flag is off and it is not empty, the feed answer otherwise. -/
theorem stable_of_constantFeed_any (w : World) (s : Server) (ps : List Product)
    (hf : ConstantFeed w ps) :
    StableSnapshot w s
      (if w.reloadCatalog = false ∧ s.p.catalog.Products ≠ [] then s.p.catalog.Products
       else ps) := by
  by_cases hc : w.reloadCatalog = false ∧ s.p.catalog.Products ≠ []
  · rw [if_pos hc]
    exact stable_of_cached w s hc.1 hc.2
  · rw [if_neg hc]
    intro n
    apply stable_of_constantFeed w ps hf n s
    cases hw : w.reloadCatalog with
    | true => exact Or.inl rfl
    | false =>
      right; left
      by_contra hne
      exact hc ⟨hw, hne⟩

theorem scanLast_eq_scanFirst (id : String) (snap : List Product)
    (hnd : (snap.map Product.Id).Nodup) :
    scanLast id none snap = scanFirst id snap := by
  unfold scanFirst
  rcases scanLast_spec id snap none with ⟨h1, h2⟩ | ⟨pre, p, post, h1, h2, h3, h4⟩
  · rw [h1]
    symm
    rw [List.find?_eq_none]
    intro x hx hd
    exact h2 x hx (of_decide_eq_true hd).symm
  · rw [h4, h1]
    rw [h1, List.map_append, List.map_cons, List.nodup_append] at hnd
    obtain ⟨_, _, hdis⟩ := hnd
    have hpre : List.find? (fun x => decide (id = x.Id)) pre = none := by
      rw [List.find?_eq_none]
      intro x hx hd
      have hxid : x.Id = p.Id := by rw [h2]; exact (of_decide_eq_true hd).symm
      exact hdis (List.mem_map.mpr ⟨x, hx, hxid⟩) (List.mem_cons_self _ _)
    rw [List.find?_append, hpre, List.find?_cons_of_pos _ (by simp [h2])]
    rfl

/-- C18: with a feed that answers every fetch with the same products and no
error, for every reload flag, stored catalog and id, `GetProduct` ends (given
fuel beyond the snapshot lengths) and no index access is out of range. On a
server whose stored snapshot came from that feed (it is empty or the feed
answer) or whose flag is on, the call returns the last product of the feed
answer with the requested `Id`, or `NotFound` when there is none. -/
theorem C18_constant_feed_in_bounds (fuel : Nat) (w : World) (s : Server)
    (req : GetProductRequest) (ps : List Product)
    (hf : ConstantFeed w ps)
    (hfuel : ps.length < fuel ∧ s.p.catalog.Products.length < fuel) :
    ∃ r s1, GetProduct fuel w s req = some (r, s1) ∧ r ≠ .indexPanic ∧
      ((w.reloadCatalog = true ∨ s.p.catalog.Products = [] ∨ s.p.catalog.Products = ps) →
        (((∀ x ∈ ps, x.Id ≠ req.Id) ∧
            r = .err { code := .NotFound, message := "no product with ID " ++ req.Id }) ∨
          (∃ pre p post, ps = pre ++ p :: post ∧ p.Id = req.Id ∧
            (∀ x ∈ post, x.Id ≠ req.Id) ∧ r = .ok p))) := by
  have hany := stable_of_constantFeed_any w s ps hf
  have hlen : (if w.reloadCatalog = false ∧ s.p.catalog.Products ≠ []
      then s.p.catalog.Products else ps).length < fuel := by
    split
    · exact hfuel.2
    · exact hfuel.1
  obtain ⟨s1, h⟩ := GetProduct_stable fuel w s req _ hany hlen
  refine ⟨_, s1, h, ?_, ?_⟩
  · cases scanLast req.Id none
      (if w.reloadCatalog = false ∧ s.p.catalog.Products ≠ [] then s.p.catalog.Products
       else ps) <;> simp [answerOf]
  · intro hs
    have hsnap : (if w.reloadCatalog = false ∧ s.p.catalog.Products ≠ []
        then s.p.catalog.Products else ps) = ps := by
      split
      · rename_i hc
        rcases hs with h1 | h1 | h1
        · rw [hc.1] at h1; cases h1
        · exact absurd h1 hc.2
        · exact h1
      · rfl
    rw [hsnap]
    rcases scanLast_spec req.Id ps none with ⟨h1, h2⟩ | ⟨pre, p, post, h1, h2, h3, h4⟩
    · left
      rw [h1]
      exact ⟨h2, rfl⟩
    · right
      rw [h4]
      exact ⟨pre, p, post, h1, h2, h3, rfl⟩

/-- C18 witness: a server that starts empty, the flag off, a feed answering
with the shirt and the mug; asking for the mug. -/
theorem C18_constant_feed_in_bounds_witness :
    GetProduct 3 (constantWorld false shirtSnapshot) {} { Id := "MUG1" }
      = some (.ok { Id := "MUG1", Name := "Mug", Description := "Ceramic" },
          { p := { catalog := { Products := shirtSnapshot } }, fetches := 1 }) ∧
    ∃ r s1, GetProduct 3 (constantWorld false shirtSnapshot) {} { Id := "MUG1" } = some (r, s1) ∧
      r ≠ .indexPanic ∧
      (((constantWorld false shirtSnapshot).reloadCatalog = true ∨
          ({} : Server).p.catalog.Products = [] ∨
          ({} : Server).p.catalog.Products = shirtSnapshot) →
        (((∀ x ∈ shirtSnapshot, x.Id ≠ "MUG1") ∧
            r = .err { code := .NotFound, message := "no product with ID " ++ "MUG1" }) ∨
          (∃ pre p post, shirtSnapshot = pre ++ p :: post ∧ p.Id = "MUG1" ∧
            (∀ x ∈ post, x.Id ≠ "MUG1") ∧ r = .ok p))) :=
  ⟨by decide,
   C18_constant_feed_in_bounds 3 (constantWorld false shirtSnapshot) {} { Id := "MUG1" }
    shirtSnapshot (fun _ _ => rfl) ⟨by decide, by decide⟩⟩

/-! ## The lookup while the feed keeps still during a request -/

theorem stableDuring_head {w : World} {s : Server} {snap : List Product} {k : Nat}
    (h : StableDuring w s snap (k + 1)) : (parseCatalog w s).1 = snap :=
  h 0 (by omega)

theorem stableDuring_tail {w : World} {s : Server} {snap : List Product} {k : Nat}
    (h : StableDuring w s snap (k + 1)) : StableDuring w (parseCatalog w s).2 snap k :=
  fun n hn => h (n + 1) (by omega)

theorem stableDuring_of_stable {w : World} {s : Server} {snap : List Product}
    (h : StableSnapshot w s snap) (k : Nat) : StableDuring w s snap k :=
  fun n _ => h n

theorem requestCalls_cons (id : String) (x : Product) (rest : List Product) :
    requestCalls id (x :: rest)
      = requestCalls id rest + 2 + (if id = x.Id then 1 else 0) := by
  unfold requestCalls
  by_cases h : id = x.Id
  · simp [List.filter_cons, h]
    omega
  · simp [List.filter_cons, h]
    omega

/-- The loop of `GetProduct` computes the last-match scan as soon as the calls
it makes itself all return the same snapshot. -/
theorem loop_stable_during (w : World) (id : String) (snap : List Product) :
    ∀ (fuel i : Nat) (found : Option Product) (s : Server),
      StableDuring w s snap (requestCalls id (snap.drop i)) →
      snap.length < fuel + i → i ≤ snap.length →
      ∃ s1, GetProduct.loop w id fuel i found s
        = some (scanLast id found (snap.drop i), false, s1) := by
  intro fuel
  induction fuel with
  | zero =>
    intro i found s _ h1 h2
    omega
  | succ fuel ih =>
    intro i found s hst h1 h2
    unfold GetProduct.loop
    by_cases hi : i < snap.length
    · have hdrop : snap.drop i = snap[i] :: snap.drop (i + 1) := List.drop_eq_getElem_cons hi
      rw [hdrop, requestCalls_cons] at hst
      have hget : snap[i]? = some snap[i] := List.getElem?_eq_getElem hi
      rw [hdrop, scanLast_cons]
      by_cases hid : id = snap[i].Id
      · rw [if_pos hid] at hst
        have e1 := stableDuring_head hst
        have t1 := stableDuring_tail hst
        have e2 := stableDuring_head t1
        have t2 := stableDuring_tail t1
        have e3 := stableDuring_head t2
        have t3 := stableDuring_tail t2
        simp only [e1, e2, e3, if_pos hi, hget, if_pos hid]
        exact ih (i + 1) _ _ t3 (by omega) (by omega)
      · rw [if_neg hid] at hst
        have e1 := stableDuring_head hst
        have t1 := stableDuring_tail hst
        have e2 := stableDuring_head t1
        have t2 := stableDuring_tail t1
        simp only [e1, e2, if_pos hi, hget, if_neg hid]
        exact ih (i + 1) _ _ t2 (by omega) (by omega)
    · have hnil : snap.drop i = [] := List.drop_eq_nil_of_le (by omega)
      rw [hnil] at hst ⊢
      have e1 : (parseCatalog w s).1 = snap := hst 0 (by unfold requestCalls; simp)
      simp only [e1, if_neg hi]
      exact ⟨_, rfl⟩

/-- When the `parseCatalog` calls of one request all return `snap`, `GetProduct`
ends without panic with the answer of the last-match scan over `snap`. -/
theorem GetProduct_stable_during (fuel : Nat) (w : World) (s : Server)
    (req : GetProductRequest) (snap : List Product)
    (hst : StableDuring w s snap (requestCalls req.Id snap)) (hfuel : snap.length < fuel) :
    ∃ s1, GetProduct fuel w s req = some (answerOf req.Id (scanLast req.Id none snap), s1) := by
  obtain ⟨s1, h⟩ := loop_stable_during w req.Id snap fuel 0 none s
    (by rw [List.drop_zero]; exact hst) (by omega) (by omega)
  refine ⟨s1, ?_⟩
  unfold GetProduct
  rw [h, List.drop_zero]
  cases scanLast req.Id none snap <;> rfl

/-- When the calls of one request all return `snap`: a product returned is the
last of `snap` with the requested `Id`; the answer is `NotFound`, carrying the
id, exactly when `snap` has no product with that `Id`, and otherwise a product
of `snap` with that `Id`. -/
theorem GetProduct_last_match_of_stable_request (fuel : Nat) (w : World) (s : Server)
    (req : GetProductRequest) (snap : List Product)
    (hst : StableDuring w s snap (requestCalls req.Id snap)) (hfuel : snap.length < fuel) :
    ∃ r s1, GetProduct fuel w s req = some (r, s1) ∧ r ≠ .indexPanic ∧
      (∀ p, r = .ok p →
        ∃ pre post, snap = pre ++ p :: post ∧ p.Id = req.Id ∧ ∀ x ∈ post, x.Id ≠ req.Id) ∧
      (r = .err { code := .NotFound, message := "no product with ID " ++ req.Id } ↔
        ∀ x ∈ snap, x.Id ≠ req.Id) ∧
      ((∃ x ∈ snap, x.Id = req.Id) → ∃ p, r = .ok p ∧ p ∈ snap ∧ p.Id = req.Id) := by
  obtain ⟨s1, h⟩ := GetProduct_stable_during fuel w s req snap hst hfuel
  refine ⟨_, s1, h, ?_⟩
  rcases scanLast_spec req.Id snap none with ⟨h1, h2⟩ | ⟨pre, q, post, h1, h2, h3, h4⟩
  · rw [h1]
    refine ⟨fun h => (by cases h), fun p hp => (by cases hp), ⟨fun _ => h2, fun _ => rfl⟩, ?_⟩
    rintro ⟨x, hx, hid⟩
    exact absurd hid (h2 x hx)
  · rw [h4]
    have hq : q ∈ snap := by rw [h1]; simp
    refine ⟨fun h => (by cases h), ?_, ⟨fun h => (by cases h), fun h => absurd h2 (h q hq)⟩, ?_⟩
    · intro p hp
      cases hp
      exact ⟨pre, post, h1, h2, h3⟩
    · intro _
      exact ⟨q, rfl, hq, h2⟩

/-- When the calls of one request all return the snapshot of the first call,
`GetProduct` as written answers as the memoised lookup does. -/
theorem GetProduct_memoised_of_stable_request (fuel : Nat) (w : World) (s : Server)
    (req : GetProductRequest)
    (hst : StableDuring w s (parseCatalog w s).1 (requestCalls req.Id (parseCatalog w s).1))
    (hfuel : (parseCatalog w s).1.length < fuel) :
    ∃ s1, GetProduct fuel w s req = some ((GetProductMemoised w s req).1, s1) :=
  GetProduct_stable_during fuel w s req (parseCatalog w s).1 hst hfuel

/-- When the calls of one request all return `snap` and the identifiers of
`snap` are pairwise distinct, `GetProduct` answers with the first match, the
only product of `snap` with that `Id`. -/
theorem GetProduct_first_match_of_stable_request (fuel : Nat) (w : World) (s : Server)
    (req : GetProductRequest) (snap : List Product)
    (hnd : (snap.map Product.Id).Nodup)
    (hst : StableDuring w s snap (requestCalls req.Id snap)) (hfuel : snap.length < fuel) :
    (∃ s1, GetProduct fuel w s req = some (answerOf req.Id (scanFirst req.Id snap), s1)) ∧
    (∀ p, scanFirst req.Id snap = some p →
      p ∈ snap ∧ p.Id = req.Id ∧ ∀ x ∈ snap, x.Id = req.Id → x = p) := by
  have he := scanLast_eq_scanFirst req.Id snap hnd
  refine ⟨?_, ?_⟩
  · obtain ⟨s1, h⟩ := GetProduct_stable_during fuel w s req snap hst hfuel
    exact ⟨s1, by rw [h, he]⟩
  · intro p hp
    unfold scanFirst at hp
    have hmem : p ∈ snap := List.mem_of_find?_eq_some hp
    have hid : p.Id = req.Id := by
      have := List.find?_some hp
      exact (of_decide_eq_true this).symm
    refine ⟨hmem, hid, ?_⟩
    intro x hx hxid
    exact List.inj_on_of_nodup_map hnd hx hmem (by rw [hxid, hid])

/-! ## The lookup while the feed changes during a request -/

/-- C3: reload on every access and a feed whose answer changes between the
fetches of one request. The request starts on a snapshot whose only product has
`Id` `X`; asked for `X`, `GetProduct` succeeds with the product named `B`, whose
`Id` is `Y`: the product returned is not a product with the requested `Id`, let
alone the last one. -/
theorem C3_changing_feed_returns_other_id :
    (parseCatalog changingWorld {}).1 = [{ Id := "X", Name := "A" }] ∧
    GetProduct 5 changingWorld {} { Id := "X" }
      = some (.ok { Id := "Y", Name := "B" },
          { p := { catalog := { Products := [{ Id := "Y", Name := "B" }] } }, fetches := 4 }) ∧
    ({ Id := "Y", Name := "B" } : Product).Id ≠ "X" ∧
    ¬ StableDuring changingWorld {} [{ Id := "X", Name := "A" }]
        (requestCalls "X" [{ Id := "X", Name := "A" }]) := by
  refine ⟨by decide, by decide, by decide, ?_⟩
  intro h
  have := h 2 (by decide)
  revert this
  decide

/-- C5: reload on every access and a feed that answers once and is then down.
The request starts on a snapshot of one product with `Id` `X`; asked for
`missing-id`, which no product has, `GetProduct` does not answer `NotFound`: the
loop test sees one product, the next call returns no products, and the index
is out of range. With the changing feed, asked for `X`, it succeeds with a
product whose `Id` is `Y`. -/
theorem C5_flaky_feed_panics_instead_of_not_found :
    (parseCatalog flakyWorld {}).1 = [{ Id := "X", Name := "A" }] ∧
    (∀ x ∈ (parseCatalog flakyWorld {}).1, x.Id ≠ "missing-id") ∧
    GetProduct 5 flakyWorld {} { Id := "missing-id" }
      = some (.indexPanic,
          { p := { catalog := { Products := [{ Id := "X", Name := "A" }] } }, fetches := 2 }) ∧
    (GetProduct 5 changingWorld {} { Id := "X" }).map Prod.fst
      = some (.ok { Id := "Y", Name := "B" }) := by
  refine ⟨by decide, by decide, by decide, by decide⟩

/-- C14: reload on every access and a feed whose answer changes between the
fetches of one request. Asked for `X`, `GetProduct` as written returns the
product with `Id` `Y`, while the memoised scan returns the product with `Id`
`X`; with a feed that shrinks, `GetProduct` as written indexes out of range
while the memoised scan succeeds. -/
theorem C14_changing_feed_differs_from_memoised :
    GetProduct 5 changingWorld {} { Id := "X" }
      = some (.ok { Id := "Y", Name := "B" },
          { p := { catalog := { Products := [{ Id := "Y", Name := "B" }] } }, fetches := 4 }) ∧
    (GetProductMemoised changingWorld {} { Id := "X" }).1 = .ok { Id := "X", Name := "A" } ∧
    GetProduct 5 shrinkingWorld {} { Id := "X" }
      = some (.indexPanic, { p := { catalog := { Products := [] } }, fetches := 2 }) ∧
    (GetProductMemoised shrinkingWorld {} { Id := "X" }).1 = .ok { Id := "X", Name := "A" } := by
  refine ⟨by decide, by decide, by decide, by decide⟩

/-- C19: reload on every access and a feed whose answer changes between the
fetches of one request; every snapshot the feed gives has pairwise distinct
identifiers. A first-match scan over the snapshot the request starts on finds
the product with `Id` `X`; `GetProduct` as written returns the product with
`Id` `Y`. -/
theorem C19_changing_feed_differs_from_first_match :
    (((parseCatalog changingWorld {}).1).map Product.Id).Nodup ∧
    (([{ Id := "Y", Name := "B" }] : List Product).map Product.Id).Nodup ∧
    answerOf "X" (scanFirst "X" (parseCatalog changingWorld {}).1)
      = .ok { Id := "X", Name := "A" } ∧
    (GetProduct 5 changingWorld {} { Id := "X" }).map Prod.fst
      = some (.ok { Id := "Y", Name := "B" }) ∧
    (.ok { Id := "Y", Name := "B" } : Outcome Product) ≠ .ok { Id := "X", Name := "A" } := by
  refine ⟨by decide, by decide, by decide, by decide, by decide⟩

/-! ## The decimal parser against the numeral grammar -/

end ProductCatalog
